import Mathlib

/-!
Shallow embedding of the blkid tag index (`lib/blkid/tag.c`).

Pointers to `struct blkid_struct_tag` are modelled by numeric identifiers
into an arena (`State.tagStore`); the two intrusive lists every tag belongs
to (its device's `bid_tags` list and a head bucket's `bit_names` list)
become lists of identifiers, so that an in-place mutation of a tag node
(such as `t->bit_val = val` on the replace path) is a single arena update
visible from both lists, exactly as in the C code.  Nullable `char *`
fields become `Option String`; the string contents are kept by value
(string identity is never used by the code under `src/`).  `malloc`
failure is modelled by an explicit allocation oracle: a list of booleans
consumed one per allocation site, in the order the C code allocates;
an exhausted oracle means every remaining allocation succeeds.
-/

/-- Model of `struct blkid_struct_tag`: `bit_name` and `bit_val` are the
nullable owned strings, `bit_dev` the back pointer to the owning device
(an index into `State.devices`), and `names` the member list of the
`bit_names` bucket anchored at this tag (meaningful for head tags; an
ordinary tag's bucket membership is recorded by its id appearing in some
head's `names`). -/
structure Tag where
  name : Option String
  val : Option String
  dev : Option Nat
  names : List Nat
deriving DecidableEq

/-- The all-absent tag, as produced by `calloc` in `blkid_new_tag` (also
used as the junk read for a dangling identifier). -/
def defaultTag : Tag := ⟨none, none, none, []⟩

/-- Model of `struct blkid_struct_dev` restricted to the fields `tag.c`
touches: `bid_pri`, the `BLKID_BID_FL_MTYPE` flag bit, the `bid_tags`
list (as tag identifiers, insertion order), the three shortcut pointers
`bid_type` / `bid_label` / `bid_uuid` (kept by value), and whether
`bid_cache` is non-null (the model has a single cache). -/
structure Device where
  devname : String
  pri : Int
  mtype : Bool
  tags : List Nat
  typeSc : Option String
  labelSc : Option String
  uuidSc : Option String
  hasCache : Bool
deriving DecidableEq

def defaultDevice : Device := ⟨"", 0, false, [], none, none, none, false⟩

/-- The whole mutable state: the tag arena plus a fresh-id counter, the
cache's device list, the cache's `bic_tags` list of head tags, and the
`BLKID_BIC_FL_CHANGED` / `BLKID_BIC_FL_PROBED` flag bits. -/
structure State where
  tagStore : List (Nat × Tag)
  nextId : Nat
  devices : List Device
  heads : List Nat
  changed : Bool
  probed : Bool
deriving DecidableEq

def getTag (s : State) (tid : Nat) : Tag :=
  (s.tagStore.lookup tid).getD defaultTag

def getDevice (s : State) (d : Nat) : Device :=
  s.devices.getD d defaultDevice

def setDevice (s : State) (d : Nat) (dv : Device) : State :=
  { s with devices := s.devices.set d dv }

/-- Allocation oracle step: pop the next success bit (an exhausted oracle
always succeeds). -/
def allocStep (o : List Bool) : Bool × List Bool :=
  (o.headD true, o.tail)

/-- Modelled from the spec: `blkid_strndup` (StringPool, missing from
`src/`) returns `NULL` for a `NULL` argument, copies the whole string when
the length bound is zero, and otherwise copies at most `length`
characters. -/
def strndupStr (v : String) (length : Nat) : String :=
  if length = 0 then v else ⟨v.toList.take length⟩

/-- Model of `blkid_new_tag` followed by storing the record: a fresh
identifier is handed out and the record entered into the arena. -/
def addTag (s : State) (t : Tag) : State :=
  { s with tagStore := (s.nextId, t) :: s.tagStore, nextId := s.nextId + 1 }

/-- Model of `blkid_free_tag`: unlink from the `bit_tags` list the tag
lives on (a device's tag list, or the cache's head list when the tag is a
head), unlink from every `bit_names` bucket, and release the node. -/
def blkid_free_tag (s : State) (tid : Nat) : State :=
  { s with
    devices := s.devices.map (fun dv => { dv with tags := dv.tags.filter (· ≠ tid) }),
    heads := s.heads.filter (· ≠ tid),
    tagStore := (s.tagStore.filter (fun p => p.1 ≠ tid)).map
      (fun p => (p.1, { p.2 with names := p.2.names.filter (· ≠ tid) })) }

/-- Model of `blkid_find_tag_dev`: first tag on the device whose
`bit_name` compares equal to `type` (a `NULL` `bit_name` never compares
equal; in C that dereference would be undefined). -/
def blkid_find_tag_dev (s : State) (d : Nat) (type : String) : Option Nat :=
  (getDevice s d).tags.find? (fun tid => (getTag s tid).name == some type)

/-- Model of `blkid_find_head_cache`: first head tag in `bic_tags` whose
name equals `type`; a `NULL` `type` yields `NULL` (the C code checks
`!type` explicitly). -/
def blkid_find_head_cache (s : State) (type : Option String) : Option Nat :=
  match type with
  | none => none
  | some ty => s.heads.find? (fun h => (getTag s h).name == some ty)

/-- The `repeat` loop of `blkid_set_tag` in delete mode (`value == NULL`):
find the first tag with the given name on the device and free it, until
none remains.  The C loop is bounded by the device's tag list shrinking at
every step; the fuel argument makes that bound explicit (callers pass the
current length of the list, which suffices). -/
def deleteLoop : Nat → State → Nat → String → State
  | 0, s, _, _ => s
  | fuel + 1, s, d, name =>
    match blkid_find_tag_dev s d name with
    | none => s
    | some tid => deleteLoop fuel (blkid_free_tag s tid) d name

/-- The `link_tags` epilogue of `blkid_set_tag`: maintain the TYPE /
LABEL / UUID shortcut pointers (`val` is the just-installed value pointer,
`none` in delete mode) and raise `BLKID_BIC_FL_CHANGED` when the device is
bound to a cache. -/
def linkTags (s : State) (d : Nat) (name : String) (val : Option String) : State × Int :=
  let dv := getDevice s d
  let dv :=
    if name == "TYPE" && (val.isNone || dv.typeSc.isNone) then { dv with typeSc := val }
    else if name == "LABEL" then { dv with labelSc := val }
    else if name == "UUID" then { dv with uuidSc := val }
    else dv
  let s := setDevice s d dv
  let s := if (getDevice s d).hasCache then { s with changed := true } else s
  (s, 0)

/-- The `errout` epilogue of `blkid_set_tag`: free `t` if set (else the
bare `val` string, a no-op on the state in this model), free `head` if
set, and return `-BLKID_ERR_MEM` (errno-style 12, from the header missing
from `src/`). -/
def errout (s : State) (t : Option Nat) (head : Option Nat) : State × Int :=
  let s := match t with
    | some tid => blkid_free_tag s tid
    | none => s
  let s := match head with
    | some hid => blkid_free_tag s hid
    | none => s
  (s, -12)

/-- Append a tag to a head's `bit_names` bucket
(`list_add_tail(&t->bit_names, &head->bit_names)`). -/
def addToBucket (s : State) (h : Nat) (tid : Nat) : State :=
  let upd := fun (p : Nat × Tag) =>
    if p.1 = h then (p.1, { p.2 with names := p.2.names ++ [tid] }) else p
  { s with tagStore := s.tagStore.map upd }

/-- In-place value replacement on a tag node (`t->bit_val = val` after
freeing the old value); both lists holding the node observe the update. -/
def updateTagVal (s : State) (tid : Nat) (v : String) : State :=
  let upd := fun (p : Nat × Tag) =>
    if p.1 = tid then (p.1, { p.2 with val := some v }) else p
  { s with tagStore := s.tagStore.map upd }

/-- The tag-creation tail of `blkid_set_tag` (from `t = blkid_new_tag()`
to the end of the `bid_cache` block): allocate the tag, duplicate the name
(the C code does NOT check this strdup for failure), install value and
device, append to the device's tag list, and when the device is bound to
a cache find or create the head bucket for `t->bit_name` and append the
tag to it. -/
def createTag (o : List Bool) (s : State) (d : Nat) (name : String) (val : String) :
    State × Int :=
  let (ok, o) := allocStep o
  if ok then
    let (okName, o) := allocStep o
    let tname : Option String := if okName then some name else none
    let tid := s.nextId
    let s := addTag s { name := tname, val := some val, dev := some d, names := [] }
    let s := setDevice s d { getDevice s d with tags := (getDevice s d).tags ++ [tid] }
    if (getDevice s d).hasCache then
      match blkid_find_head_cache s tname with
      | some h => linkTags (addToBucket s h tid) d name (some val)
      | none =>
        let (okHead, o) := allocStep o
        if okHead then
          let (okHeadName, _) := allocStep o
          let hid := s.nextId
          if okHeadName then
            let s := addTag s { name := some name, val := none, dev := none, names := [] }
            let s := { s with heads := s.heads ++ [hid] }
            linkTags (addToBucket s hid tid) d name (some val)
          else
            let s := addTag s { name := none, val := none, dev := none, names := [] }
            errout s (some tid) (some hid)
        else
          errout s (some tid) none
    else
      linkTags s d name (some val)
  else
    errout s none none

/-- The body of `blkid_set_tag` after the parameter check, with the
device and name known to be non-null. -/
def setTagMain (o : List Bool) (s : State) (d : Nat) (name : String)
    (value : Option String) (vlength : Nat) (replace : Bool) : State × Int :=
  match value with
  | none =>
    let s := deleteLoop (getDevice s d).tags.length s d name
    linkTags s d name none
  | some v =>
    let t := blkid_find_tag_dev s d name
    let (ok, o) := allocStep o
    if ok then
      let val := strndupStr v vlength
      match t with
      | some tid =>
        if (getTag s tid).val == some val then (s, 0)
        else if replace then
          linkTags (updateTagVal s tid val) d name (some val)
        else
          let s := setDevice s d { getDevice s d with mtype := true }
          createTag o s d name val
      | none => createTag o s d name val
    else
      errout s t none

/-- Model of `blkid_set_tag`: null device or name yields
`-BLKID_ERR_PARAM` (errno-style 22, from the header missing from `src/`),
otherwise the main body runs. -/
def blkid_set_tag (o : List Bool) (s : State) (dev : Option Nat) (name : Option String)
    (value : Option String) (vlength : Nat) (replace : Bool) : State × Int :=
  match dev, name with
  | some d, some n => setTagMain o s d n value vlength replace
  | _, _ => (s, -22)

/-- Observable (name, value) pairs of a device's tag list, in insertion
order. -/
def devPairs (s : State) (d : Nat) : List (Option String × Option String) :=
  (getDevice s d).tags.map (fun tid => ((getTag s tid).name, (getTag s tid).val))

/-- Priority of a tag's device as read by the bucket scan of
`blkid_find_dev_with_tag` (`tmp->bit_dev->bid_pri`); a `NULL` `bit_dev`
would be undefined in C and is modelled as the sentinel `-1`, which the
scan can never select. -/
def bidPri (s : State) : Option Nat → Int
  | some i => (getDevice s i).pri
  | none => -1

/-- The bucket walk of `blkid_find_dev_with_tag`: fold over the head's
`bit_names` list keeping the first tag whose value matches and whose
device's priority strictly exceeds the running maximum (seeded with
`pri = -1`). -/
def scanBucket (s : State) (v : String) :
    List Nat → Option Nat × Option Nat × Int → Option Nat × Option Nat × Int
  | [], acc => acc
  | tid :: rest, (found, dv, pri) =>
    let tg := getTag s tid
    if tg.val == some v && bidPri s tg.dev > pri then
      scanBucket s v rest (some tid, tg.dev, bidPri s tg.dev)
    else
      scanBucket s v rest (found, dv, pri)

/-- One pass of the `try_again` loop of `blkid_find_dev_with_tag`.
`devIn` models the function's local `dev`, which the C code leaves
UNINITIALIZED when the scan selects nothing; passing it in makes that
read explicit.  The verifier is a collaborator (`blkid_verify_devname`,
missing from `src/`); per the spec it revalidates a device and may mutate
the cache or report absence.  The result is `none` when the pass hits the
undefined dereference `found->bit_val` with `found == NULL` (possible
only if verification returns a device although nothing was selected);
otherwise `some (state, dev, retry)` where `retry` is the
`(!head || !dev) && !PROBED` condition. -/
def findPass (verify : State → Option Nat → State × Option Nat) (s : State)
    (ty v : String) (devIn : Option Nat) : Option (State × Option Nat × Bool) :=
  let head := blkid_find_head_cache s (some ty)
  let scanned :=
    match head with
    | some h => scanBucket s v (getTag s h).names (none, devIn, -1)
    | none => (none, devIn, -1)
  let found := scanned.1
  let (s, dv) := verify s scanned.2.1
  let checked : Option (Option Nat) :=
    match dv, found with
    | none, _ => some none
    | some dvc, some f => some (if (getTag s f).val == some v then some dvc else none)
    | some _, none => none
  match checked with
  | none => none
  | some dvFinal => some (s, dvFinal, (head.isNone || dvFinal.isNone) && !s.probed)

/-- The `try_again` loop of `blkid_find_dev_with_tag`, with explicit fuel
(the C loop is unbounded; the spec's probe contract bounds it, which the
theorems establish) and a counter of `blkid_probe_all` invocations.
`none` means the fuel ran out or a pass hit undefined behavior. -/
def findDevAux (probe : State → State) (verify : State → Option Nat → State × Option Nat) :
    Nat → State → Option Nat → String → String → Nat → Option (State × Option Nat × Nat)
  | 0, _, _, _, _, _ => none
  | fuel + 1, s, devIn, ty, v, cnt =>
    match findPass verify s ty v devIn with
    | none => none
    | some (s1, dv, retry) =>
      if retry then findDevAux probe verify fuel (probe s1) devIn ty v (cnt + 1)
      else some (s1, dv, cnt)

/-- A verifier that revalidates every device as-is (no mutation, no
staleness); used to settle claims that are not about verification. -/
def trivVerify : State → Option Nat → State × Option Nat :=
  fun s dv => (s, dv)

/-- A prober that discovers nothing (used only where the probe is never
reached or its effect is irrelevant). -/
def trivProbe : State → State := fun s => s

/-- Characters strictly before the last occurrence of `c` (`strrchr`
followed by truncation at the found position), or `none` when `c` does
not occur. -/
def lastSplit (c : Char) : List Char → Option (List Char)
  | [] => none
  | a :: rest =>
    match lastSplit c rest with
    | some r => some (a :: r)
    | none => if a = c then some [] else none

def dquote : Char := Char.ofNat 34

def squote : Char := Char.ofNat 39

/-- Model of `blkid_parse_tag_string`: split at the first `=` (fail
without one), duplicate the token (first allocation), strip a leading
double or single quote together with its closing counterpart found by
`strrchr` (fail when unterminated), duplicate the value (second
allocation).  All failures surface as the single error result `none`
(the C function returns `-1`). -/
def blkid_parse_tag_string (o : List Bool) (token : List Char) :
    Option (List Char × List Char) :=
  if '=' ∈ token then
    let (ok, o) := allocStep o
    if ok then
      let name := token.takeWhile (fun a => a ≠ '=')
      let rest := (token.dropWhile (fun a => a ≠ '=')).tail
      let value : Option (List Char) :=
        match rest with
        | c :: r => if c = dquote ∨ c = squote then lastSplit c r else some (c :: r)
        | [] => some []
      match value with
      | none => none
      | some v =>
        let (ok2, _) := allocStep o
        if ok2 then some (name, v) else none
    else none
  else none

/-- One operation of the claimed `set_tag` / delete sequences, applied to
device `0` through the all-successful allocation oracle. -/
inductive Op where
  | set (name : String) (value : Option String) (vlength : Nat) (replace : Bool)
deriving DecidableEq

def applyOp (s : State) : Op → State
  | .set n v len r => (blkid_set_tag [] s (some 0) (some n) v len r).1

def runOps (s : State) : List Op → State
  | [] => s
  | op :: rest => runOps (applyOp s op) rest

/-- The tags of device `d` carrying name `n`. -/
def tagsNamed (s : State) (d : Nat) (n : String) : List Nat :=
  (getDevice s d).tags.filter (fun tid => (getTag s tid).name == some n)

/-- Side condition of the amended invariant claim: a `set_tag` call that
installs a value must find at most one tag of that name on the device. -/
def okOp (s : State) : Op → Bool
  | .set n v _ _ => !v.isSome || (tagsNamed s 0 n).length ≤ 1

def okRun (s : State) : List Op → Bool
  | [] => true
  | op :: rest => okOp s op && okRun (applyOp s op) rest

/-- Data-model invariant 4: no two tags on the device share the same
(name, value) pair. -/
def Inv4 (s : State) (d : Nat) : Prop :=
  (devPairs s d).Nodup

instance (s : State) (d : Nat) : Decidable (Inv4 s d) := by
  unfold Inv4
  infer_instance

/-- The member list of the head bucket for `ty` (empty when the bucket is
absent). -/
def bucketIds (s : State) (ty : String) : List Nat :=
  match blkid_find_head_cache s (some ty) with
  | some h => (getTag s h).names
  | none => []

/-- The bucket tags whose value matches the query. -/
def matchIds (s : State) (ty v : String) : List Nat :=
  (bucketIds s ty).filter (fun tid => (getTag s tid).val == some v)

/-- Spec-side query contract (amended): an absent result means no
matching tag has device priority above the scan's `-1` sentinel; a
returned device is owed to a matching tag of priority above `-1` that
strictly beats every earlier matching tag and at least ties every later
one (highest priority, ties broken by first encountered). -/
def BestMatch (s : State) (ty v : String) : Option Nat → Prop
  | none => ∀ tid ∈ matchIds s ty v, bidPri s (getTag s tid).dev ≤ -1
  | some dvc => ∃ A tid B, matchIds s ty v = A ++ tid :: B ∧
      (getTag s tid).dev = some dvc ∧ bidPri s (getTag s tid).dev > -1 ∧
      (∀ u ∈ A, bidPri s (getTag s u).dev < bidPri s (getTag s tid).dev) ∧
      (∀ u ∈ B, bidPri s (getTag s u).dev ≤ bidPri s (getTag s tid).dev)

/-- The scenario device `sda1`, priority 0, bound to the cache. -/
def initDev : Device :=
  { devname := "sda1", pri := 0, mtype := false, tags := [],
    typeSc := none, labelSc := none, uuidSc := none, hasCache := true }

/-- A fresh cache holding the single scenario device. -/
def initState : State :=
  { tagStore := [], nextId := 0, devices := [initDev], heads := [],
    changed := false, probed := false }

/-- The scenario device without a cache binding. -/
def initStateNoCache : State :=
  { initState with devices := [{ initDev with hasCache := false }] }

/-- State after scenario 1 (replace-in-place): `TYPE=ext4` with
`replace = false`, then `TYPE=xfs` with `replace = true`, on the fresh
scenario cache. -/
def replaceRun : State :=
  (blkid_set_tag []
    (blkid_set_tag [] initState (some 0) (some "TYPE") (some "ext4") 0 false).1
    (some 0) (some "TYPE") (some "xfs") 0 true).1

/-- The operation sequence leading to a duplicated (name, value) pair:
two coexisting TYPE tags, then `replace = true` with the second tag's
value. -/
def dupOps : List Op :=
  [Op.set "TYPE" (some "ext4") 0 false,
   Op.set "TYPE" (some "xfs") 0 false,
   Op.set "TYPE" (some "xfs") 0 true]

/-- A probed cache holding one device of priority `-1` that carries
`TYPE=ext4`, registered in the TYPE head bucket. -/
def negPriState : State :=
  { tagStore := [(0, { name := some "TYPE", val := some "ext4", dev := some 0, names := [] }),
                 (1, { name := some "TYPE", val := none, dev := none, names := [0] })],
    nextId := 2,
    devices := [{ devname := "sda1", pri := -1, mtype := false, tags := [0],
                  typeSc := some "ext4", labelSc := none, uuidSc := none, hasCache := true }],
    heads := [1], changed := false, probed := true }

/-- C1 counterexample: `negPriState` holds a device carrying `TYPE=ext4`
(the tag with id 0, so the claim demands that device be returned as the
unique — hence highest-priority — match), `PROBED` is set, yet
`blkid_find_dev_with_tag` returns absent: the scan seeds its running
maximum with `pri = -1` and can never select a device whose priority does
not exceed `-1`. -/
theorem find_dev_with_tag_negative_pri_cex :
    findDevAux trivProbe trivVerify 2 negPriState none "TYPE" "ext4" 0
      = some (negPriState, none, 0) ∧
    matchIds negPriState "TYPE" "ext4" = [0] ∧
    (getTag negPriState 0).dev = some 0 := by decide

/-- C2: after `set_tag(TYPE, ext4, replace=false)` then
`set_tag(TYPE, xfs, replace=true)` the device carries exactly one TYPE
tag with value `xfs` and `MULTIPLE_TYPE` is clear, but the TYPE shortcut
still holds the old value: the replace path frees the old value and
installs the new one in the tag, while `link_tags` only assigns
`bid_type` when it is `NULL`, so the shortcut keeps referencing the
freed old string (modelled by value: it stays `ext4`) instead of
becoming `xfs` as the claim states. -/
theorem set_tag_replace_keeps_stale_type_shortcut :
    devPairs replaceRun 0 = [(some "TYPE", some "xfs")] ∧
    (getDevice replaceRun 0).mtype = false ∧
    (getDevice replaceRun 0).typeSc = some "ext4" ∧
    (getDevice replaceRun 0).typeSc ≠ some "xfs" := by decide

/-- C3 counterexample: after the `dupOps` sequence the device carries two
tags with the identical pair (TYPE, xfs) — `set_tag` only inspects the
first tag of a given name, so `replace = true` overwrites the first tag
with the value the second tag already carries, violating data-model
invariant 4. -/
theorem set_tag_duplicate_pair_cex :
    devPairs (runOps initState dupOps) 0
      = [(some "TYPE", some "xfs"), (some "TYPE", some "xfs")] ∧
    ¬ Inv4 (runOps initState dupOps) 0 := by decide

/-- C4: when duplicating the tag name fails (third allocation of the
call: strndup of the value and the tag calloc succeed, the name strdup
fails), `blkid_set_tag` does not notice — line 151 never checks the
result — and returns 0 (success) while a tag with a NULL name has been
linked onto the device and the TYPE shortcut set, contradicting the
claimed OutOfMemory-with-rollback behavior. -/
theorem set_tag_unchecked_name_strdup :
    (blkid_set_tag [true, true, false] initStateNoCache
        (some 0) (some "TYPE") (some "ext4") 0 false).2 = 0 ∧
    (blkid_set_tag [true, true, false] initStateNoCache
        (some 0) (some "TYPE") (some "ext4") 0 false).1
      ≠ initStateNoCache ∧
    devPairs (blkid_set_tag [true, true, false] initStateNoCache
        (some 0) (some "TYPE") (some "ext4") 0 false).1 0
      = [(none, some "ext4")] := by decide

/-- C8 counterexample: the token `=abc` — whose name part is empty, hence
outside the claimed grammar (`name` of length at least 1) — is accepted
by the parser, which splits at the first `=` without ever checking that
anything precedes it. -/
theorem parse_tag_empty_name_cex :
    blkid_parse_tag_string [] ('=' :: ['a', 'b', 'c'])
      = some ([], ['a', 'b', 'c']) := by decide

theorem lookup_map_valfun (g : Nat → Tag → Tag) :
    ∀ (l : List (Nat × Tag)) (u : Nat),
      (l.map (fun p => (p.1, g p.1 p.2))).lookup u = (l.lookup u).map (g u) := by
  intro l
  induction l with
  | nil => intro u; rfl
  | cons p rest ih =>
    intro u
    by_cases hu : u = p.1
    · have ht : (u == p.1) = true := by simp [hu]
      simp [List.lookup, ht, hu]
    · have hf : (u == p.1) = false := by simp [hu]
      simp [List.lookup, hf, ih u]

theorem lookup_filter_map_free (g : Tag → Tag) :
    ∀ (l : List (Nat × Tag)) (tid u : Nat),
      ((l.filter (fun p => p.1 ≠ tid)).map (fun p => (p.1, g p.2))).lookup u
        = if u = tid then none else (l.lookup u).map g := by
  intro l
  induction l with
  | nil =>
    intro tid u
    by_cases hu : u = tid <;> simp [List.lookup, hu]
  | cons p rest ih =>
    intro tid u
    rw [List.filter_cons]
    by_cases hp : p.1 = tid
    · have hdec : (decide (p.1 ≠ tid)) = false := by simp [hp]
      rw [hdec]
      simp only [Bool.false_eq_true, if_false, ih]
      by_cases hu : u = tid
      · simp [hu]
      · have hupf : (u == p.1) = false := by
          subst hp
          simp [hu]
        simp [List.lookup, hu, hupf]
    · have hdec : (decide (p.1 ≠ tid)) = true := by simp [hp]
      rw [hdec]
      simp only [if_true, List.map_cons, List.lookup]
      by_cases hu : u = p.1
      · have ht : (u == p.1) = true := by simp [hu]
        have hunt : ¬ (u = tid) := by
          subst hu
          exact hp
        simp [ht, hunt]
      · have hf : (u == p.1) = false := by simp [hu]
        rw [hf]
        exact ih tid u

theorem getTag_freeTag (s : State) (tid u : Nat) :
    getTag (blkid_free_tag s tid) u
      = if u = tid then defaultTag
        else { getTag s u with names := (getTag s u).names.filter (· ≠ tid) } := by
  have h := lookup_filter_map_free (fun t => { t with names := t.names.filter (· ≠ tid) })
    s.tagStore tid u
  show (((s.tagStore.filter (fun p => p.1 ≠ tid)).map
      (fun p => (p.1, { p.2 with names := p.2.names.filter (· ≠ tid) }))).lookup u).getD
    defaultTag = _
  rw [h]
  unfold getTag
  by_cases hu : u = tid
  · simp [hu, defaultTag]
  · simp only [hu, if_false]
    cases s.tagStore.lookup u <;> simp [defaultTag]

theorem getDevice_eq_getElem (s : State) (d : Nat) :
    getDevice s d = (s.devices[d]?).getD defaultDevice := by
  unfold getDevice
  exact List.getD_eq_getElem?_getD s.devices d defaultDevice

theorem getDevice_freeTag (s : State) (tid : Nat) (d : Nat) :
    getDevice (blkid_free_tag s tid) d
      = { getDevice s d with tags := (getDevice s d).tags.filter (· ≠ tid) } := by
  rw [getDevice_eq_getElem, getDevice_eq_getElem]
  show ((s.devices.map _)[d]?).getD _ = _
  rw [List.getElem?_map]
  cases s.devices[d]? <;> simp [defaultDevice]

theorem getDevice_setDevice (s : State) (d : Nat) (dv : Device) (d' : Nat) :
    getDevice (setDevice s d dv) d'
      = if d' = d ∧ d < s.devices.length then dv else getDevice s d' := by
  rw [getDevice_eq_getElem, getDevice_eq_getElem]
  show ((s.devices.set d dv)[d']?).getD _ = _
  by_cases hd : d' = d
  · subst hd
    by_cases hlen : d' < s.devices.length
    · rw [List.getElem?_set_self (by omega)]
      simp [hlen]
    · rw [List.set_eq_of_length_le (by omega)]
      simp [hlen]
  · rw [List.getElem?_set_ne (by omega)]
    simp [hd]

theorem getTag_setDevice (s : State) (d : Nat) (dv : Device) (u : Nat) :
    getTag (setDevice s d dv) u = getTag s u := rfl

theorem getTag_addTag (s : State) (t : Tag) (u : Nat) :
    getTag (addTag s t) u = if u = s.nextId then t else getTag s u := by
  unfold getTag addTag
  by_cases hu : u = s.nextId
  · have ht : (u == s.nextId) = true := by simp [hu]
    simp [List.lookup, ht, hu]
  · have hf : (u == s.nextId) = false := by simp [hu]
    simp [List.lookup, hf, hu]

theorem getDevice_addTag (s : State) (t : Tag) (d : Nat) :
    getDevice (addTag s t) d = getDevice s d := rfl

theorem getTag_addToBucket (s : State) (h tid : Nat) (u : Nat) :
    getTag (addToBucket s h tid) u
      = if u = h ∧ (s.tagStore.lookup u).isSome then
          { getTag s u with names := (getTag s u).names ++ [tid] }
        else getTag s u := by
  have hmap : (s.tagStore.map fun p =>
        if p.1 = h then (p.1, { p.2 with names := p.2.names ++ [tid] }) else p)
      = s.tagStore.map fun p =>
        (p.1, (fun k t => if k = h then { t with names := t.names ++ [tid] } else t) p.1 p.2) := by
    apply List.map_congr_left
    intro p _
    by_cases hp : p.1 = h <;> simp [hp]
  show (((s.tagStore.map fun p =>
      if p.1 = h then (p.1, { p.2 with names := p.2.names ++ [tid] }) else p).lookup u).getD
    defaultTag) = _
  rw [hmap, lookup_map_valfun (fun k t => if k = h then { t with names := t.names ++ [tid] } else t)]
  unfold getTag
  by_cases hu : u = h
  · subst hu
    cases s.tagStore.lookup u <;> simp [defaultTag]
  · cases s.tagStore.lookup u <;> simp [hu]

theorem getDevice_addToBucket (s : State) (h tid : Nat) (d : Nat) :
    getDevice (addToBucket s h tid) d = getDevice s d := rfl

theorem getTag_updateTagVal (s : State) (tid : Nat) (v : String) (u : Nat) :
    getTag (updateTagVal s tid v) u
      = if u = tid ∧ (s.tagStore.lookup u).isSome then { getTag s u with val := some v }
        else getTag s u := by
  have hmap : (s.tagStore.map fun p =>
        if p.1 = tid then (p.1, { p.2 with val := some v }) else p)
      = s.tagStore.map fun p =>
        (p.1, (fun k t => if k = tid then { t with val := some v } else t) p.1 p.2) := by
    apply List.map_congr_left
    intro p _
    by_cases hp : p.1 = tid <;> simp [hp]
  show (((s.tagStore.map fun p =>
      if p.1 = tid then (p.1, { p.2 with val := some v }) else p).lookup u).getD
    defaultTag) = _
  rw [hmap, lookup_map_valfun (fun k t => if k = tid then { t with val := some v } else t)]
  unfold getTag
  by_cases hu : u = tid
  · subst hu
    cases s.tagStore.lookup u <;> simp [defaultTag]
  · cases s.tagStore.lookup u <;> simp [hu]

theorem getDevice_updateTagVal (s : State) (tid : Nat) (v : String) (d : Nat) :
    getDevice (updateTagVal s tid v) d = getDevice s d := rfl

theorem getTag_updateTagVal_name (s : State) (tid : Nat) (v : String) (u : Nat) :
    (getTag (updateTagVal s tid v) u).name = (getTag s u).name := by
  rw [getTag_updateTagVal]
  split <;> rfl

theorem getTag_addToBucket_name (s : State) (h tid : Nat) (u : Nat) :
    (getTag (addToBucket s h tid) u).name = (getTag s u).name := by
  rw [getTag_addToBucket]
  split <;> rfl

theorem getTag_addToBucket_val (s : State) (h tid : Nat) (u : Nat) :
    (getTag (addToBucket s h tid) u).val = (getTag s u).val := by
  rw [getTag_addToBucket]
  split <;> rfl

theorem getTag_addToBucket_dev (s : State) (h tid : Nat) (u : Nat) :
    (getTag (addToBucket s h tid) u).dev = (getTag s u).dev := by
  rw [getTag_addToBucket]
  split <;> rfl

theorem getDevice_mkChanged (s : State) (b : Bool) (d : Nat) :
    getDevice { s with changed := b } d = getDevice s d := rfl

theorem getDevice_ite_changed (c : Prop) [Decidable c] (s : State) (d : Nat) :
    getDevice (if c then { s with changed := true } else s) d = getDevice s d := by
  split <;> rfl

theorem tagStore_ite_changed (c : Prop) [Decidable c] (s : State) :
    (if c then { s with changed := true } else s).tagStore = s.tagStore := by
  split <;> rfl

theorem nextId_ite_changed (c : Prop) [Decidable c] (s : State) :
    (if c then { s with changed := true } else s).nextId = s.nextId := by
  split <;> rfl

theorem heads_ite_changed (c : Prop) [Decidable c] (s : State) :
    (if c then { s with changed := true } else s).heads = s.heads := by
  split <;> rfl

theorem devices_ite_changed (c : Prop) [Decidable c] (s : State) :
    (if c then { s with changed := true } else s).devices = s.devices := by
  split <;> rfl

theorem linkTags_snd (s : State) (d : Nat) (n : String) (v : Option String) :
    (linkTags s d n v).2 = 0 := rfl

theorem linkTags_tagStore (s : State) (d : Nat) (n : String) (v : Option String) :
    (linkTags s d n v).1.tagStore = s.tagStore := by
  simp only [linkTags]
  rw [tagStore_ite_changed]
  rfl

theorem linkTags_nextId (s : State) (d : Nat) (n : String) (v : Option String) :
    (linkTags s d n v).1.nextId = s.nextId := by
  simp only [linkTags]
  rw [nextId_ite_changed]
  rfl

theorem linkTags_heads (s : State) (d : Nat) (n : String) (v : Option String) :
    (linkTags s d n v).1.heads = s.heads := by
  simp only [linkTags]
  rw [heads_ite_changed]
  rfl

theorem linkTags_devices_length (s : State) (d : Nat) (n : String) (v : Option String) :
    (linkTags s d n v).1.devices.length = s.devices.length := by
  simp only [linkTags]
  rw [devices_ite_changed]
  simp [setDevice]

theorem getTag_linkTags (s : State) (d : Nat) (n : String) (v : Option String) (u : Nat) :
    getTag (linkTags s d n v).1 u = getTag s u := by
  unfold getTag
  rw [linkTags_tagStore]

theorem getDevice_linkTags_tags (s : State) (d : Nat) (n : String) (v : Option String)
    (d' : Nat) :
    (getDevice (linkTags s d n v).1 d').tags = (getDevice s d').tags := by
  simp only [linkTags]
  rw [getDevice_ite_changed, getDevice_setDevice]
  split
  · rename_i hcond
    rw [hcond.1]
    split
    · rfl
    · split
      · rfl
      · split <;> rfl
  · rfl

theorem getDevice_linkTags_mtype (s : State) (d : Nat) (n : String) (v : Option String)
    (d' : Nat) :
    (getDevice (linkTags s d n v).1 d').mtype = (getDevice s d').mtype := by
  simp only [linkTags]
  rw [getDevice_ite_changed, getDevice_setDevice]
  split
  · rename_i hcond
    rw [hcond.1]
    split
    · rfl
    · split
      · rfl
      · split <;> rfl
  · rfl

theorem getDevice_linkTags_typeSc (s : State) (d : Nat) (n : String) (v : Option String)
    (hd : d < s.devices.length) :
    (getDevice (linkTags s d n v).1 d).typeSc
      = if n == "TYPE" && (v.isNone || (getDevice s d).typeSc.isNone) then v
        else (getDevice s d).typeSc := by
  simp only [linkTags]
  rw [getDevice_ite_changed, getDevice_setDevice]
  simp only [hd, and_true, if_true, true_and, if_pos rfl]
  split
  · rfl
  · split
    · rfl
    · split <;> rfl

theorem getDevice_linkTags_labelSc (s : State) (d : Nat) (n : String) (v : Option String)
    (hd : d < s.devices.length) :
    (getDevice (linkTags s d n v).1 d).labelSc
      = if n == "LABEL" then v else (getDevice s d).labelSc := by
  simp only [linkTags]
  rw [getDevice_ite_changed, getDevice_setDevice]
  simp only [hd, and_true, if_true, true_and, if_pos rfl]
  split
  · rename_i hty
    have hne : ¬ (n == "LABEL") = true := by
      rw [Bool.and_eq_true] at hty
      rw [beq_iff_eq] at hty ⊢
      simp [hty.1]
    simp [hne]
  · split
    · rename_i hlab
      simp [hlab]
    · rename_i hty hlab
      split <;> simp [hlab]

theorem getDevice_linkTags_uuidSc (s : State) (d : Nat) (n : String) (v : Option String)
    (hd : d < s.devices.length) :
    (getDevice (linkTags s d n v).1 d).uuidSc
      = if n == "UUID" then v else (getDevice s d).uuidSc := by
  simp only [linkTags]
  rw [getDevice_ite_changed, getDevice_setDevice]
  simp only [hd, and_true, if_true, true_and, if_pos rfl]
  split
  · rename_i hty
    have hne : ¬ (n == "UUID") = true := by
      rw [Bool.and_eq_true] at hty
      rw [beq_iff_eq] at hty ⊢
      simp [hty.1]
    simp [hne]
  · split
    · rename_i hlab
      have hne : ¬ (n == "UUID") = true := by
        rw [beq_iff_eq] at hlab ⊢
        simp [hlab]
      simp [hne]
    · split
      · rename_i huu
        simp [huu]
      · rename_i hty hlab huu
        simp [huu]

theorem getTag_heads_append (s : State) (l : List Nat) (u : Nat) :
    getTag { s with heads := l } u = getTag s u := rfl

/-- The state after the unconditional prefix of the creation tail: tag
allocated and stored, appended to the device's tag list. -/
def ctagState (s : State) (d : Nat) (n val : String) : State :=
  setDevice (addTag s { name := some n, val := some val, dev := some d, names := [] }) d
    { getDevice (addTag s { name := some n, val := some val, dev := some d, names := [] }) d with
      tags := (getDevice (addTag s { name := some n, val := some val, dev := some d, names := [] }) d).tags
        ++ [s.nextId] }

/-- The state after creating a fresh head bucket on `s2` and linking it
into the cache's head list. -/
def cheadState (s2 : State) (n : String) : State :=
  { addTag s2 { name := some n, val := none, dev := none, names := [] } with
    heads := (addTag s2 { name := some n, val := none, dev := none, names := [] }).heads
      ++ [s2.nextId] }

theorem ctag_getDevice (s : State) (d : Nat) (n val : String) (hd : d < s.devices.length) :
    getDevice (ctagState s d n val) d
      = { getDevice s d with tags := (getDevice s d).tags ++ [s.nextId] } := by
  unfold ctagState
  rw [getDevice_setDevice]
  have : getDevice (addTag s { name := some n, val := some val, dev := some d, names := [] }) d
      = getDevice s d := rfl
  rw [this]
  have hlen : (addTag s { name := some n, val := some val, dev := some d, names := [] }).devices.length
      = s.devices.length := rfl
  simp [hlen, hd]

theorem ctag_getTag (s : State) (d : Nat) (n val : String) (u : Nat) :
    getTag (ctagState s d n val) u
      = if u = s.nextId then { name := some n, val := some val, dev := some d, names := [] }
        else getTag s u := by
  unfold ctagState
  rw [getTag_setDevice, getTag_addTag]

theorem ctag_len (s : State) (d : Nat) (n val : String) :
    (ctagState s d n val).devices.length = s.devices.length := by
  unfold ctagState setDevice
  simp [addTag]

theorem ctag_nextId (s : State) (d : Nat) (n val : String) :
    (ctagState s d n val).nextId = s.nextId + 1 := rfl

theorem chead_getTag (s2 : State) (n : String) (u : Nat) :
    getTag (cheadState s2 n) u
      = if u = s2.nextId then { name := some n, val := none, dev := none, names := [] }
        else getTag s2 u := by
  unfold cheadState
  have : getTag { addTag s2 { name := some n, val := none, dev := none, names := [] } with
      heads := (addTag s2 { name := some n, val := none, dev := none, names := [] }).heads
        ++ [s2.nextId] } u
      = getTag (addTag s2 { name := some n, val := none, dev := none, names := [] }) u := rfl
  rw [this, getTag_addTag]

theorem chead_getDevice (s2 : State) (n : String) (d : Nat) :
    getDevice (cheadState s2 n) d = getDevice s2 d := rfl

theorem chead_len (s2 : State) (n : String) :
    (cheadState s2 n).devices.length = s2.devices.length := rfl

theorem chead_nextId (s2 : State) (n : String) :
    (cheadState s2 n).nextId = s2.nextId + 1 := rfl

theorem createTag_red (s : State) (d : Nat) (n val : String) :
    createTag [] s d n val
      = (if (getDevice (ctagState s d n val) d).hasCache then
          match blkid_find_head_cache (ctagState s d n val) (some n) with
          | some h => linkTags (addToBucket (ctagState s d n val) h s.nextId) d n (some val)
          | none =>
            linkTags
              (addToBucket (cheadState (ctagState s d n val) n) (ctagState s d n val).nextId
                s.nextId)
              d n (some val)
         else linkTags (ctagState s d n val) d n (some val)) := rfl

theorem linkTags_final (s : State) (d : Nat) (n val : String) (w : State)
    (hd : d < s.devices.length)
    (hwdev : getDevice w d = { getDevice s d with tags := (getDevice s d).tags ++ [s.nextId] })
    (hwlen : w.devices.length = s.devices.length)
    (hwnext : s.nextId < w.nextId)
    (hwold : ∀ u, u ≠ s.nextId → u ≠ s.nextId + 1 →
      (getTag w u).name = (getTag s u).name ∧ (getTag w u).val = (getTag s u).val)
    (hwnew : (getTag w s.nextId).name = some n ∧ (getTag w s.nextId).val = some val ∧
      (getTag w s.nextId).dev = some d) :
    (linkTags w d n (some val)).2 = 0 ∧
    (linkTags w d n (some val)).1.devices.length = s.devices.length ∧
    s.nextId < (linkTags w d n (some val)).1.nextId ∧
    (getDevice (linkTags w d n (some val)).1 d).tags = (getDevice s d).tags ++ [s.nextId] ∧
    (getDevice (linkTags w d n (some val)).1 d).mtype = (getDevice s d).mtype ∧
    (getDevice (linkTags w d n (some val)).1 d).typeSc
      = (if n == "TYPE" && (getDevice s d).typeSc.isNone then some val
         else (getDevice s d).typeSc) ∧
    (getDevice (linkTags w d n (some val)).1 d).labelSc
      = (if n == "LABEL" then some val else (getDevice s d).labelSc) ∧
    (getDevice (linkTags w d n (some val)).1 d).uuidSc
      = (if n == "UUID" then some val else (getDevice s d).uuidSc) ∧
    (∀ u, u ≠ s.nextId → u ≠ s.nextId + 1 →
      (getTag (linkTags w d n (some val)).1 u).name = (getTag s u).name ∧
      (getTag (linkTags w d n (some val)).1 u).val = (getTag s u).val) ∧
    (getTag (linkTags w d n (some val)).1 s.nextId).name = some n ∧
    (getTag (linkTags w d n (some val)).1 s.nextId).val = some val ∧
    (getTag (linkTags w d n (some val)).1 s.nextId).dev = some d := by
  have hdw : d < w.devices.length := by
    rw [hwlen]
    exact hd
  refine ⟨linkTags_snd w d n (some val), ?_, ?_, ?_, ?_, ?_, ?_, ?_, ?_, ?_, ?_, ?_⟩
  · rw [linkTags_devices_length]
    exact hwlen
  · rw [linkTags_nextId]
    exact hwnext
  · rw [getDevice_linkTags_tags, hwdev]
  · rw [getDevice_linkTags_mtype, hwdev]
  · rw [getDevice_linkTags_typeSc w d n (some val) hdw, hwdev]
    simp
  · rw [getDevice_linkTags_labelSc w d n (some val) hdw, hwdev]
  · rw [getDevice_linkTags_uuidSc w d n (some val) hdw, hwdev]
  · intro u hu1 hu2
    rw [getTag_linkTags]
    exact hwold u hu1 hu2
  · rw [getTag_linkTags]
    exact hwnew.1
  · rw [getTag_linkTags]
    exact hwnew.2.1
  · rw [getTag_linkTags]
    exact hwnew.2.2

theorem createTag_ok (s : State) (d : Nat) (n val : String) (hd : d < s.devices.length) :
    (createTag [] s d n val).2 = 0 ∧
    (createTag [] s d n val).1.devices.length = s.devices.length ∧
    s.nextId < (createTag [] s d n val).1.nextId ∧
    (getDevice (createTag [] s d n val).1 d).tags = (getDevice s d).tags ++ [s.nextId] ∧
    (getDevice (createTag [] s d n val).1 d).mtype = (getDevice s d).mtype ∧
    (getDevice (createTag [] s d n val).1 d).typeSc
      = (if n == "TYPE" && (getDevice s d).typeSc.isNone then some val
         else (getDevice s d).typeSc) ∧
    (getDevice (createTag [] s d n val).1 d).labelSc
      = (if n == "LABEL" then some val else (getDevice s d).labelSc) ∧
    (getDevice (createTag [] s d n val).1 d).uuidSc
      = (if n == "UUID" then some val else (getDevice s d).uuidSc) ∧
    (∀ u, u ≠ s.nextId → u ≠ s.nextId + 1 →
      (getTag (createTag [] s d n val).1 u).name = (getTag s u).name ∧
      (getTag (createTag [] s d n val).1 u).val = (getTag s u).val) ∧
    (getTag (createTag [] s d n val).1 s.nextId).name = some n ∧
    (getTag (createTag [] s d n val).1 s.nextId).val = some val ∧
    (getTag (createTag [] s d n val).1 s.nextId).dev = some d := by
  have hctag_dev := ctag_getDevice s d n val hd
  have hctag_tag := ctag_getTag s d n val
  have hctag_len := ctag_len s d n val
  have hold : ∀ u, u ≠ s.nextId → u ≠ s.nextId + 1 →
      (getTag (ctagState s d n val) u).name = (getTag s u).name ∧
      (getTag (ctagState s d n val) u).val = (getTag s u).val := by
    intro u hu1 _
    rw [hctag_tag u, if_neg hu1]
    exact ⟨rfl, rfl⟩
  have hnew : (getTag (ctagState s d n val) s.nextId).name = some n ∧
      (getTag (ctagState s d n val) s.nextId).val = some val ∧
      (getTag (ctagState s d n val) s.nextId).dev = some d := by
    rw [hctag_tag s.nextId, if_pos rfl]
    exact ⟨rfl, rfl, rfl⟩
  rw [createTag_red]
  by_cases hcache : (getDevice (ctagState s d n val) d).hasCache = true
  · rw [if_pos hcache]
    rcases hh : blkid_find_head_cache (ctagState s d n val) (some n) with _ | h
    · -- no head bucket yet: a fresh head is created and the tag linked into it
      apply linkTags_final s d n val _ hd
      · rw [show ∀ dd, getDevice (addToBucket (cheadState (ctagState s d n val) n)
            (ctagState s d n val).nextId s.nextId) dd
            = getDevice (cheadState (ctagState s d n val) n) dd from fun _ => rfl]
        rw [chead_getDevice]
        exact hctag_dev
      · rw [show (addToBucket (cheadState (ctagState s d n val) n)
            (ctagState s d n val).nextId s.nextId).devices.length
            = (cheadState (ctagState s d n val) n).devices.length from rfl]
        rw [chead_len]
        exact hctag_len
      · rw [show (addToBucket (cheadState (ctagState s d n val) n)
            (ctagState s d n val).nextId s.nextId).nextId
            = (cheadState (ctagState s d n val) n).nextId from rfl]
        rw [chead_nextId, ctag_nextId]
        omega
      · intro u hu1 hu2
        rw [getTag_addToBucket_name, getTag_addToBucket_val, chead_getTag, ctag_nextId,
          if_neg hu2]
        exact hold u hu1 hu2
      · refine ⟨?_, ?_, ?_⟩
        · rw [getTag_addToBucket_name, chead_getTag, ctag_nextId, if_neg (by omega)]
          exact hnew.1
        · rw [getTag_addToBucket_val, chead_getTag, ctag_nextId, if_neg (by omega)]
          exact hnew.2.1
        · rw [getTag_addToBucket_dev, chead_getTag, ctag_nextId, if_neg (by omega)]
          exact hnew.2.2
    · -- head bucket found: the tag is linked into it
      apply linkTags_final s d n val _ hd
      · rw [getDevice_addToBucket]
        exact hctag_dev
      · rw [show (addToBucket (ctagState s d n val) h s.nextId).devices.length
            = (ctagState s d n val).devices.length from rfl]
        exact hctag_len
      · rw [show (addToBucket (ctagState s d n val) h s.nextId).nextId
            = (ctagState s d n val).nextId from rfl]
        rw [ctag_nextId]
        omega
      · intro u hu1 hu2
        rw [getTag_addToBucket_name, getTag_addToBucket_val]
        exact hold u hu1 hu2
      · refine ⟨?_, ?_, ?_⟩
        · rw [getTag_addToBucket_name]
          exact hnew.1
        · rw [getTag_addToBucket_val]
          exact hnew.2.1
        · rw [getTag_addToBucket_dev]
          exact hnew.2.2
  · rw [if_neg hcache]
    apply linkTags_final s d n val _ hd
    · exact hctag_dev
    · exact hctag_len
    · rw [ctag_nextId]
      omega
    · exact hold
    · exact hnew

theorem find?_congr_pred (p q : Nat → Bool) :
    ∀ (l : List Nat), (∀ a ∈ l, p a = q a) → l.find? p = l.find? q := by
  intro l
  induction l with
  | nil => intro _; rfl
  | cons a rest ih =>
    intro h
    rw [List.find?_cons, List.find?_cons, h a (by simp)]
    cases hq : q a
    · exact ih (fun b hb => h b (by simp [hb]))
    · rfl

theorem blkid_set_tag_some (o : List Bool) (s : State) (d : Nat) (n : String)
    (value : Option String) (vlength : Nat) (replace : Bool) :
    blkid_set_tag o s (some d) (some n) value vlength replace
      = setTagMain o s d n value vlength replace := rfl

theorem find_tag_dev_linkTags (s : State) (d : Nat) (n : String) (v : Option String)
    (d' : Nat) (n' : String) :
    blkid_find_tag_dev (linkTags s d n v).1 d' n' = blkid_find_tag_dev s d' n' := by
  unfold blkid_find_tag_dev
  rw [getDevice_linkTags_tags]
  exact find?_congr_pred _ _ _ (fun a _ => by rw [getTag_linkTags])

theorem find_tag_dev_updateTagVal (s : State) (tid : Nat) (v : String)
    (d' : Nat) (n' : String) :
    blkid_find_tag_dev (updateTagVal s tid v) d' n' = blkid_find_tag_dev s d' n' := by
  unfold blkid_find_tag_dev
  rw [show getDevice (updateTagVal s tid v) d' = getDevice s d' from rfl]
  exact find?_congr_pred _ _ _ (fun a _ => by rw [getTag_updateTagVal_name])

theorem lookup_isSome_of_find (s : State) (d : Nat) (n : String) (tid : Nat)
    (h : blkid_find_tag_dev s d n = some tid) : (s.tagStore.lookup tid).isSome := by
  have hp := List.find?_some h
  by_contra hn
  rw [Option.not_isSome_iff_eq_none] at hn
  unfold getTag at hp
  rw [hn] at hp
  simp [defaultTag] at hp

theorem setTagMain_some_red (s : State) (d : Nat) (n v : String) (len : Nat)
    (replace : Bool) :
    setTagMain [] s d n (some v) len replace
      = (match blkid_find_tag_dev s d n with
         | some tid =>
           if (getTag s tid).val == some (strndupStr v len) then (s, 0)
           else if replace then
             linkTags (updateTagVal s tid (strndupStr v len)) d n (some (strndupStr v len))
           else createTag [] (setDevice s d { getDevice s d with mtype := true }) d n
             (strndupStr v len)
         | none => createTag [] s d n (strndupStr v len)) := rfl

theorem setTagMain_create_red (s : State) (d : Nat) (n v : String) (len : Nat)
    (replace : Bool) (h : blkid_find_tag_dev s d n = none) :
    setTagMain [] s d n (some v) len replace = createTag [] s d n (strndupStr v len) := by
  rw [setTagMain_some_red, h]

theorem setTagMain_same_red (s : State) (d : Nat) (n v : String) (len : Nat)
    (replace : Bool) (tid : Nat) (h : blkid_find_tag_dev s d n = some tid)
    (heq : ((getTag s tid).val == some (strndupStr v len)) = true) :
    setTagMain [] s d n (some v) len replace = (s, 0) := by
  rw [setTagMain_some_red, h]
  exact if_pos heq

theorem setTagMain_replace_red (s : State) (d : Nat) (n v : String) (len : Nat)
    (tid : Nat) (h : blkid_find_tag_dev s d n = some tid)
    (hne : ¬ ((getTag s tid).val == some (strndupStr v len)) = true) :
    setTagMain [] s d n (some v) len true
      = linkTags (updateTagVal s tid (strndupStr v len)) d n (some (strndupStr v len)) := by
  rw [setTagMain_some_red, h]
  exact (if_neg hne).trans (if_pos rfl)

theorem setTagMain_mtype_red (s : State) (d : Nat) (n v : String) (len : Nat)
    (tid : Nat) (h : blkid_find_tag_dev s d n = some tid)
    (hne : ¬ ((getTag s tid).val == some (strndupStr v len)) = true) :
    setTagMain [] s d n (some v) len false
      = createTag [] (setDevice s d { getDevice s d with mtype := true }) d n
          (strndupStr v len) := by
  rw [setTagMain_some_red, h]
  exact (if_neg hne).trans (if_neg (by simp))

/-- After a successful `set_tag` with a value and `replace = true`, the
first tag named `n` on the device carries the installed (truncated)
value. -/
theorem set_tag_post_replace (s : State) (d : Nat) (n v : String) (len : Nat)
    (hd : d < s.devices.length)
    (hfresh : ∀ tid ∈ (getDevice s d).tags, tid < s.nextId) :
    ∃ tid, blkid_find_tag_dev
        (blkid_set_tag [] s (some d) (some n) (some v) len true).1 d n = some tid ∧
      (getTag (blkid_set_tag [] s (some d) (some n) (some v) len true).1 tid).val
        = some (strndupStr v len) := by
  rw [blkid_set_tag_some]
  rcases hfind : blkid_find_tag_dev s d n with _ | tid
  · rw [setTagMain_create_red s d n v len true hfind]
    obtain ⟨_, _, _, htags, _, _, _, _, hpres, hname, hval, _⟩ :=
      createTag_ok s d n (strndupStr v len) hd
    refine ⟨s.nextId, ?_, hval⟩
    unfold blkid_find_tag_dev
    rw [htags, List.find?_append]
    have hnone : (getDevice s d).tags.find?
        (fun u => (getTag (createTag [] s d n (strndupStr v len)).1 u).name == some n)
          = none := by
      apply List.find?_eq_none.mpr
      intro u hu
      have hu1 : u ≠ s.nextId := by
        have := hfresh u hu
        omega
      have hu2 : u ≠ s.nextId + 1 := by
        have := hfresh u hu
        omega
      rw [(hpres u hu1 hu2).1]
      have := List.find?_eq_none.mp hfind u hu
      simpa using this
    rw [hnone]
    simp [List.find?, hname]
  · by_cases heq : ((getTag s tid).val == some (strndupStr v len)) = true
    · rw [setTagMain_same_red s d n v len true tid hfind heq]
      refine ⟨tid, hfind, by rwa [beq_iff_eq] at heq⟩
    · rw [setTagMain_replace_red s d n v len tid hfind heq]
      refine ⟨tid, ?_, ?_⟩
      · rw [find_tag_dev_linkTags, find_tag_dev_updateTagVal]
        exact hfind
      · rw [getTag_linkTags, getTag_updateTagVal]
        have hsome := lookup_isSome_of_find s d n tid hfind
        rw [if_pos ⟨rfl, hsome⟩]

/-- C9: `set_tag(d, n, v, replace=true)` applied twice equals applying it
once — the second call finds the first tag named `n` already carrying the
(truncated) value and takes the "Same thing, exit" path, returning 0 and
leaving the whole state (tag list, buckets, shortcuts, `CHANGED`)
untouched.  The hypotheses say the device exists and its tag identifiers
predate the allocation counter (always true of states built by the
operations themselves). -/
theorem set_tag_replace_idempotent (s : State) (d : Nat) (n v : String) (len : Nat)
    (hd : d < s.devices.length)
    (hfresh : ∀ tid ∈ (getDevice s d).tags, tid < s.nextId) :
    blkid_set_tag [] ((blkid_set_tag [] s (some d) (some n) (some v) len true).1)
        (some d) (some n) (some v) len true
      = ((blkid_set_tag [] s (some d) (some n) (some v) len true).1, 0) := by
  obtain ⟨tid, hfind2, hval2⟩ := set_tag_post_replace s d n v len hd hfresh
  rw [blkid_set_tag_some]
  exact setTagMain_same_red _ d n v len true tid hfind2 (by rw [hval2]; simp)

/-- C7: a `set_tag` call with `replace = false` on a device whose first
tag named `n` carries a different value sets `MULTIPLE_TYPE`, appends a
new tag so both coexist in insertion order (old tags first, the new tag
last), and when `n` is TYPE leaves the already-set shortcut at the first
tag's value (`link_tags` only assigns `bid_type` when it is `NULL`). -/
theorem set_tag_multiple_type (s : State) (d : Nat) (n v : String) (len : Nat) (tid : Nat)
    (hd : d < s.devices.length)
    (hfresh : ∀ u ∈ (getDevice s d).tags, u < s.nextId)
    (htid : blkid_find_tag_dev s d n = some tid)
    (hval : (getTag s tid).val ≠ some (strndupStr v len)) :
    (blkid_set_tag [] s (some d) (some n) (some v) len false).2 = 0 ∧
    (getDevice (blkid_set_tag [] s (some d) (some n) (some v) len false).1 d).mtype = true ∧
    (getDevice (blkid_set_tag [] s (some d) (some n) (some v) len false).1 d).tags
      = (getDevice s d).tags ++ [s.nextId] ∧
    devPairs (blkid_set_tag [] s (some d) (some n) (some v) len false).1 d
      = devPairs s d ++ [(some n, some (strndupStr v len))] ∧
    (n = "TYPE" → (getDevice s d).typeSc.isSome →
      (getDevice (blkid_set_tag [] s (some d) (some n) (some v) len false).1 d).typeSc
        = (getDevice s d).typeSc) := by
  have hne : ¬ ((getTag s tid).val == some (strndupStr v len)) = true := by
    simpa using hval
  have hred : blkid_set_tag [] s (some d) (some n) (some v) len false
      = createTag [] (setDevice s d { getDevice s d with mtype := true }) d n
          (strndupStr v len) := by
    rw [blkid_set_tag_some]
    exact setTagMain_mtype_red s d n v len tid htid hne
  have hdM : d < (setDevice s d { getDevice s d with mtype := true }).devices.length := by
    simpa [setDevice] using hd
  have hgdM : getDevice (setDevice s d { getDevice s d with mtype := true }) d
      = { getDevice s d with mtype := true } := by
    rw [getDevice_setDevice]
    simp [hd]
  obtain ⟨hr0, _, _, htags, hmty, htysc, _, _, hpres, hname, hvalc, _⟩ :=
    createTag_ok (setDevice s d { getDevice s d with mtype := true }) d n
      (strndupStr v len) hdM
  have hnM : (setDevice s d { getDevice s d with mtype := true }).nextId = s.nextId := rfl
  rw [hnM] at htags hpres hname hvalc
  rw [hgdM] at htags hmty htysc
  refine ⟨?_, ?_, ?_, ?_, ?_⟩
  · rw [hred]
    exact hr0
  · rw [hred, hmty]
  · rw [hred, htags]
  · rw [hred]
    unfold devPairs
    rw [htags, List.map_append]
    congr 1
    · apply List.map_congr_left
      intro u hu
      have hu1 : u ≠ s.nextId := by
        have := hfresh u hu
        omega
      have hu2 : u ≠ s.nextId + 1 := by
        have := hfresh u hu
        omega
      obtain ⟨h1, h2⟩ := hpres u hu1 hu2
      rw [h1, h2]
      rfl
    · simp [hname, hvalc]
  · intro hT hsome
    rw [hred, htysc, hT]
    have : ((getDevice s d).typeSc.isNone) = false := by
      rw [Option.isNone_eq_false_iff]
      exact hsome
    simp [this]

theorem lookup_of_mem_nodup :
    ∀ (l : List (Nat × Tag)) (p : Nat × Tag), p ∈ l → (l.map Prod.fst).Nodup →
      l.lookup p.1 = some p.2 := by
  intro l
  induction l with
  | nil =>
    intro p hp _
    simp at hp
  | cons q rest ih =>
    intro p hp hnd
    rcases List.mem_cons.mp hp with hq | hrest
    · subst hq
      have ht : (p.1 == p.1) = true := by simp
      simp [List.lookup, ht]
    · have hne : p.1 ≠ q.1 := by
        intro hcontra
        rw [List.map_cons, List.nodup_cons] at hnd
        exact hnd.1 (hcontra ▸ List.mem_map_of_mem Prod.fst hrest)
      have hf : (p.1 == q.1) = false := by simp [hne]
      rw [List.lookup, hf]
      exact ih p hrest (by
        rw [List.map_cons, List.nodup_cons] at hnd
        exact hnd.2)

theorem keys_freeTag_nodup (s : State) (tid : Nat)
    (h : (s.tagStore.map Prod.fst).Nodup) :
    ((blkid_free_tag s tid).tagStore.map Prod.fst).Nodup := by
  have heq : (blkid_free_tag s tid).tagStore.map Prod.fst
      = (s.tagStore.filter (fun p => p.1 ≠ tid)).map Prod.fst := by
    show ((s.tagStore.filter (fun p => p.1 ≠ tid)).map
      (fun p => (p.1, { p.2 with names := p.2.names.filter (· ≠ tid) }))).map Prod.fst = _
    rw [List.map_map]
    rfl
  rw [heq]
  exact h.sublist ((List.filter_sublist _).map Prod.fst)

theorem mem_freeTag_store (s : State) (tid : Nat) (p : Nat × Tag)
    (hp : p ∈ (blkid_free_tag s tid).tagStore) :
    ∃ t, (p.1, t) ∈ s.tagStore ∧ p.1 ≠ tid ∧
      p.2.name = t.name ∧ p.2.val = t.val ∧ p.2.dev = t.dev := by
  obtain ⟨q, hq, hmap⟩ := List.mem_map.mp hp
  obtain ⟨hqmem, hqpred⟩ := List.mem_filter.mp hq
  subst hmap
  exact ⟨q.2, hqmem, by simpa using hqpred, rfl, rfl, rfl⟩

theorem hmem_freeTag (s : State) (d : Nat) (n : String) (tid : Nat)
    (hmem : ∀ p ∈ s.tagStore, p.2.dev = some d → p.2.name = some n →
      p.1 ∈ (getDevice s d).tags) :
    ∀ p ∈ (blkid_free_tag s tid).tagStore, p.2.dev = some d → p.2.name = some n →
      p.1 ∈ (getDevice (blkid_free_tag s tid) d).tags := by
  intro p hp hdev hname
  obtain ⟨t, hmem2, hne, hn, _, hd2⟩ := mem_freeTag_store s tid p hp
  rw [getDevice_freeTag]
  show p.1 ∈ (getDevice s d).tags.filter (· ≠ tid)
  apply List.mem_filter.mpr
  refine ⟨hmem (p.1, t) hmem2 ?_ ?_, by simp [hne]⟩
  · rw [← hd2]
    exact hdev
  · rw [← hn]
    exact hname

theorem deleteLoop_main (d : Nat) (n : String) :
    ∀ fuel s,
      (getDevice s d).tags.length ≤ fuel →
      (∀ p ∈ s.tagStore, p.2.dev = some d → p.2.name = some n →
        p.1 ∈ (getDevice s d).tags) →
      (s.tagStore.map Prod.fst).Nodup →
      blkid_find_tag_dev (deleteLoop fuel s d n) d n = none ∧
      (∀ p ∈ (deleteLoop fuel s d n).tagStore, p.2.dev = some d → p.2.name = some n →
        p.1 ∈ (getDevice (deleteLoop fuel s d n) d).tags) ∧
      ((deleteLoop fuel s d n).tagStore.map Prod.fst).Nodup ∧
      (deleteLoop fuel s d n).devices.length = s.devices.length := by
  intro fuel
  induction fuel with
  | zero =>
    intro s hle hmem hnd
    have htags : (getDevice s d).tags = [] := List.length_eq_zero.mp (Nat.le_zero.mp hle)
    refine ⟨?_, hmem, hnd, rfl⟩
    show blkid_find_tag_dev s d n = none
    unfold blkid_find_tag_dev
    rw [htags]
    rfl
  | succ fuel ih =>
    intro s hle hmem hnd
    rcases hf : blkid_find_tag_dev s d n with _ | tid
    · have hstep : deleteLoop (fuel + 1) s d n = s := by
        unfold deleteLoop
        rw [hf]
      rw [hstep]
      exact ⟨hf, hmem, hnd, rfl⟩
    · have hstep : deleteLoop (fuel + 1) s d n
          = deleteLoop fuel (blkid_free_tag s tid) d n := by
        conv_lhs => unfold deleteLoop
        rw [hf]
      rw [hstep]
      have hmemtid : tid ∈ (getDevice s d).tags := List.mem_of_find?_eq_some hf
      have hlen : (getDevice (blkid_free_tag s tid) d).tags.length ≤ fuel := by
        rw [getDevice_freeTag]
        have hlt : ((getDevice s d).tags.filter (· ≠ tid)).length
            < (getDevice s d).tags.length := by
          apply List.length_filter_lt_length_iff_exists.mpr
          exact ⟨tid, hmemtid, by simp⟩
        show ((getDevice s d).tags.filter (· ≠ tid)).length ≤ fuel
        omega
      obtain ⟨h1, h2, h3, h4⟩ := ih (blkid_free_tag s tid) hlen
        (hmem_freeTag s d n tid hmem) (keys_freeTag_nodup s tid hnd)
      refine ⟨h1, h2, h3, ?_⟩
      rw [h4]
      simp [blkid_free_tag]

theorem setTagMain_none_red (o : List Bool) (s : State) (d : Nat) (n : String)
    (vlength : Nat) (replace : Bool) :
    setTagMain o s d n none vlength replace
      = linkTags (deleteLoop (getDevice s d).tags.length s d n) d n none := rfl

/-- C5: `set_tag` with an absent value destroys every tag named `n` on
the device (the first match is removed repeatedly until none remains), no
tag of that device and name survives anywhere in the index — in
particular not in the head bucket, from which `blkid_free_tag` unlinks
each freed tag — and the TYPE / LABEL / UUID shortcut for `n` is cleared:
`link_tags` runs with `val == NULL` and writes that null into the
matching shortcut.  The hypotheses say the device exists, every indexed
tag owned by the device under that name is on the device's list, and
arena identifiers are unambiguous. -/
theorem set_tag_delete_all (s : State) (d : Nat) (n : String) (vlength : Nat)
    (replace : Bool)
    (hd : d < s.devices.length)
    (hmem : ∀ p ∈ s.tagStore, p.2.dev = some d → p.2.name = some n →
      p.1 ∈ (getDevice s d).tags)
    (hkeys : (s.tagStore.map Prod.fst).Nodup) :
    (blkid_set_tag [] s (some d) (some n) none vlength replace).2 = 0 ∧
    blkid_find_tag_dev (blkid_set_tag [] s (some d) (some n) none vlength replace).1 d n
      = none ∧
    (∀ p ∈ (blkid_set_tag [] s (some d) (some n) none vlength replace).1.tagStore,
      ¬ (p.2.dev = some d ∧ p.2.name = some n)) ∧
    (n = "TYPE" →
      (getDevice (blkid_set_tag [] s (some d) (some n) none vlength replace).1 d).typeSc
        = none) ∧
    (n = "LABEL" →
      (getDevice (blkid_set_tag [] s (some d) (some n) none vlength replace).1 d).labelSc
        = none) ∧
    (n = "UUID" →
      (getDevice (blkid_set_tag [] s (some d) (some n) none vlength replace).1 d).uuidSc
        = none) := by
  have hred : blkid_set_tag [] s (some d) (some n) none vlength replace
      = linkTags (deleteLoop (getDevice s d).tags.length s d n) d n none := by
    rw [blkid_set_tag_some]
    exact setTagMain_none_red [] s d n vlength replace
  obtain ⟨hfin, hmem2, hnd2, hlen2⟩ :=
    deleteLoop_main d n (getDevice s d).tags.length s (le_refl _) hmem hkeys
  have hd2 : d < (deleteLoop (getDevice s d).tags.length s d n).devices.length := by
    rw [hlen2]
    exact hd
  refine ⟨?_, ?_, ?_, ?_, ?_, ?_⟩
  · rw [hred]
    exact linkTags_snd _ d n none
  · rw [hred, find_tag_dev_linkTags]
    exact hfin
  · rw [hred]
    intro p hp hcontra
    rw [linkTags_tagStore] at hp
    have hintags := hmem2 p hp hcontra.1 hcontra.2
    have hlk := lookup_of_mem_nodup _ p hp hnd2
    have hpred := List.find?_eq_none.mp hfin p.1 hintags
    apply hpred
    show ((getTag (deleteLoop (getDevice s d).tags.length s d n) p.1).name == some n) = true
    unfold getTag
    rw [hlk]
    simpa using hcontra.2
  · intro hT
    rw [hred, getDevice_linkTags_typeSc _ d n none hd2, hT]
    simp
  · intro hL
    rw [hred, getDevice_linkTags_labelSc _ d n none hd2, hL]
    simp
  · intro hU
    rw [hred, getDevice_linkTags_uuidSc _ d n none hd2, hU]
    simp

theorem errout_snd (s : State) (t h : Option Nat) : (errout s t h).2 = -12 := rfl

theorem createTag_ret (o : List Bool) (s : State) (d : Nat) (n val : String) :
    (createTag o s d n val).2 = 0 ∨ (createTag o s d n val).2 = -12 := by
  unfold createTag
  dsimp only
  repeat' split
  all_goals
    first
      | left
        exact linkTags_snd _ _ _ _
      | right
        exact errout_snd _ _ _

theorem setTagMain_ret (o : List Bool) (s : State) (d : Nat) (n : String)
    (value : Option String) (vlength : Nat) (replace : Bool) :
    (setTagMain o s d n value vlength replace).2 = 0 ∨
    (setTagMain o s d n value vlength replace).2 = -12 := by
  unfold setTagMain
  dsimp only
  repeat' split
  all_goals
    first
      | left
        exact linkTags_snd _ _ _ _
      | right
        exact errout_snd _ _ _
      | left
        rfl
      | exact createTag_ret _ _ _ _ _

/-- C10: `blkid_set_tag` returns `-BLKID_ERR_PARAM` exactly when the
device or the name is null (in every other situation it returns 0 or
`-BLKID_ERR_MEM`), while the non-null empty name is accepted: with a
value it creates and links a tag whose name is the empty string. -/
theorem set_tag_param_errors :
    (∀ (o : List Bool) (s : State) (dv : Option Nat) (nm : Option String)
        (value : Option String) (vlength : Nat) (replace : Bool),
      (blkid_set_tag o s dv nm value vlength replace).2 = -22
        ↔ (dv = none ∨ nm = none)) ∧
    (blkid_set_tag [] initState (some 0) (some "") (some "v") 0 false).2 = 0 ∧
    devPairs (blkid_set_tag [] initState (some 0) (some "") (some "v") 0 false).1 0
      = [(some "", some "v")] := by
  refine ⟨?_, by decide, by decide⟩
  intro o s dv nm value vlength replace
  constructor
  · intro h
    by_contra hcontra
    push_neg at hcontra
    obtain ⟨hdv, hnm⟩ := hcontra
    obtain ⟨d, rfl⟩ := Option.ne_none_iff_exists'.mp hdv
    obtain ⟨n, rfl⟩ := Option.ne_none_iff_exists'.mp hnm
    rw [blkid_set_tag_some] at h
    rcases setTagMain_ret o s d n value vlength replace with h0 | h12
    · rw [h] at h0
      norm_num at h0
    · rw [h] at h12
      norm_num at h12
  · intro h
    rcases dv with _ | d
    · rfl
    · rcases nm with _ | n
      · rfl
      · rcases h with h | h <;> simp at h

theorem scanBucket_cons_pos (s : State) (v : String) (tid : Nat) (rest : List Nat)
    (f0 d0 : Option Nat) (p0 : Int)
    (hc : ((getTag s tid).val == some v
      && decide (bidPri s (getTag s tid).dev > p0)) = true) :
    scanBucket s v (tid :: rest) (f0, d0, p0)
      = scanBucket s v rest (some tid, (getTag s tid).dev, bidPri s (getTag s tid).dev) := by
  conv_lhs => unfold scanBucket
  dsimp only
  rw [if_pos hc]

theorem scanBucket_cons_neg (s : State) (v : String) (tid : Nat) (rest : List Nat)
    (f0 d0 : Option Nat) (p0 : Int)
    (hc : ¬ ((getTag s tid).val == some v
      && decide (bidPri s (getTag s tid).dev > p0)) = true) :
    scanBucket s v (tid :: rest) (f0, d0, p0) = scanBucket s v rest (f0, d0, p0) := by
  conv_lhs => unfold scanBucket
  dsimp only
  rw [if_neg hc]

theorem scanBucket_acc_none (s : State) (v : String) :
    ∀ (l : List Nat) (f0 : Option Nat) (d0 : Option Nat) (p0 : Int),
      (scanBucket s v l (f0, d0, p0)).1 = none →
      f0 = none ∧ scanBucket s v l (f0, d0, p0) = (f0, d0, p0) := by
  intro l
  induction l with
  | nil =>
    intro f0 d0 p0 h
    exact ⟨h, rfl⟩
  | cons tid rest ih =>
    intro f0 d0 p0 h
    by_cases hc : ((getTag s tid).val == some v
        && decide (bidPri s (getTag s tid).dev > p0)) = true
    · rw [scanBucket_cons_pos s v tid rest f0 d0 p0 hc] at h
      obtain ⟨hcontra, -⟩ := ih (some tid) _ _ h
      exact absurd hcontra (by simp)
    · rw [scanBucket_cons_neg s v tid rest f0 d0 p0 hc] at h ⊢
      exact ih f0 d0 p0 h

theorem findPass_head_none (verify : State → Option Nat → State × Option Nat)
    (hv : ∀ s, verify s none = (s, none)) (s : State) (ty v : String)
    (hhead : blkid_find_head_cache s (some ty) = none) :
    findPass verify s ty v none = some (s, none, !s.probed) := by
  unfold findPass
  rw [hhead]
  dsimp only
  rw [hv s]
  rfl

theorem findPass_scan_none (verify : State → Option Nat → State × Option Nat)
    (hv : ∀ s, verify s none = (s, none)) (s : State) (ty v : String) (h : Nat)
    (hhead : blkid_find_head_cache s (some ty) = some h)
    (hscan : (scanBucket s v (getTag s h).names (none, none, -1)).1 = none) :
    findPass verify s ty v none = some (s, none, !s.probed) := by
  obtain ⟨-, heq⟩ := scanBucket_acc_none s v (getTag s h).names none none (-1) hscan
  unfold findPass
  rw [hhead]
  dsimp only
  rw [heq]
  dsimp only
  rw [hv s]
  rfl

theorem findPass_not_none (verify : State → Option Nat → State × Option Nat)
    (hv : ∀ s, verify s none = (s, none)) (s : State) (ty v : String) :
    findPass verify s ty v none ≠ none := by
  rcases hhead : blkid_find_head_cache s (some ty) with _ | h
  · rw [findPass_head_none verify hv s ty v hhead]
    simp
  · rcases hscan : scanBucket s v (getTag s h).names (none, none, -1) with ⟨f0, d0, p0⟩
    rcases f0 with _ | f
    · rw [findPass_scan_none verify hv s ty v h hhead (by rw [hscan])]
      simp
    · unfold findPass
      rw [hhead]
      dsimp only
      rw [hscan]
      dsimp only
      rcases hver : verify s d0 with ⟨s1, dv1⟩
      rcases dv1 with _ | dvc
      · simp
      · simp

theorem findPass_probed (verify : State → Option Nat → State × Option Nat)
    (hvp : ∀ s dv, ((verify s dv).1).probed = s.probed)
    (s : State) (ty v : String) (devIn : Option Nat) (s1 : State) (dv : Option Nat)
    (retry : Bool)
    (h : findPass verify s ty v devIn = some (s1, dv, retry)) :
    s1.probed = s.probed ∧ (retry = true → s1.probed = false) := by
  unfold findPass at h
  dsimp only at h
  rcases hsc : (match blkid_find_head_cache s (some ty) with
    | some hh => scanBucket s v (getTag s hh).names (none, devIn, -1)
    | none => (none, devIn, -1)) with ⟨f0, d0, p0⟩
  rw [hsc] at h
  dsimp only at h
  rcases hver : verify s d0 with ⟨s1', dv1'⟩
  rw [hver] at h
  dsimp only at h
  have hs1' : s1'.probed = s.probed := by
    have hx := hvp s d0
    rw [hver] at hx
    exact hx
  rcases dv1' with _ | dvc
  · dsimp only at h
    simp only [Option.some.injEq, Prod.mk.injEq] at h
    obtain ⟨h1, -, h3⟩ := h
    subst h1
    constructor
    · exact hs1'
    · intro hr
      rw [← h3] at hr
      rcases (Bool.and_eq_true _ _).mp hr with ⟨-, hb⟩
      simpa using hb
  · rcases f0 with _ | f
    · dsimp only at h
      exact absurd h (by simp)
    · dsimp only at h
      simp only [Option.some.injEq, Prod.mk.injEq] at h
      obtain ⟨h1, -, h3⟩ := h
      subst h1
      constructor
      · exact hs1'
      · intro hr
        rw [← h3] at hr
        rcases (Bool.and_eq_true _ _).mp hr with ⟨-, hb⟩
        simpa using hb

theorem findDevAux_step (probe : State → State)
    (verify : State → Option Nat → State × Option Nat) (fuel : Nat) (s : State)
    (devIn : Option Nat) (ty v : String) (cnt : Nat) :
    findDevAux probe verify (fuel + 1) s devIn ty v cnt
      = (match findPass verify s ty v devIn with
         | none => none
         | some (s1, dv, retry) =>
           if retry then findDevAux probe verify fuel (probe s1) devIn ty v (cnt + 1)
           else some (s1, dv, cnt)) := rfl

/-- C6: under the spec's collaborator contracts — `probe_all` sets
`PROBED`, verification reports an absent device as absent without
touching the cache, and never changes `PROBED` — the `try_again` loop of
`blkid_find_dev_with_tag` completes within two passes (fuel 2 suffices
and more fuel changes nothing), invokes the full probe at most once, and
performs no probe at all when `PROBED` was already set. -/
theorem find_dev_with_tag_probe_once (probe : State → State)
    (verify : State → Option Nat → State × Option Nat)
    (hp : ∀ s, (probe s).probed = true)
    (hv : ∀ s, verify s none = (s, none))
    (hvp : ∀ s dv, ((verify s dv).1).probed = s.probed)
    (s : State) (ty v : String) (fuel : Nat) :
    findDevAux probe verify (fuel + 2) s none ty v 0
      = findDevAux probe verify 2 s none ty v 0 ∧
    (findDevAux probe verify 2 s none ty v 0).isSome ∧
    (∀ r, findDevAux probe verify 2 s none ty v 0 = some r →
      r.2.2 ≤ 1 ∧ (s.probed = true → r.2.2 = 0)) := by
  rcases hp1 : findPass verify s ty v none with _ | ⟨s1, dv1, retry1⟩
  · exact absurd hp1 (findPass_not_none verify hv s ty v)
  obtain ⟨hpr1, hre1⟩ := findPass_probed verify hvp s ty v none s1 dv1 retry1 hp1
  cases retry1 with
  | false =>
    have e1 : ∀ f, findDevAux probe verify (f + 1) s none ty v 0 = some (s1, dv1, 0) := by
      intro f
      rw [findDevAux_step, hp1]
      dsimp only
      rw [if_neg (by simp)]
    refine ⟨?_, ?_, ?_⟩
    · rw [show fuel + 2 = (fuel + 1) + 1 from rfl, e1 (fuel + 1), show (2 : Nat) = 1 + 1 from rfl,
        e1 1]
    · rw [show (2 : Nat) = 1 + 1 from rfl, e1 1]
      rfl
    · intro r hr
      rw [show (2 : Nat) = 1 + 1 from rfl, e1 1] at hr
      rcases Option.some.inj hr with rfl
      exact ⟨by show (0 : Nat) ≤ 1; omega, fun _ => rfl⟩
  | true =>
    have hprobe_false : s.probed = false := by
      rw [← hpr1]
      exact hre1 rfl
    have hs2 : (probe s1).probed = true := hp s1
    rcases hp2 : findPass verify (probe s1) ty v none with _ | ⟨s3, dv3, retry3⟩
    · exact absurd hp2 (findPass_not_none verify hv (probe s1) ty v)
    obtain ⟨hpr3, hre3⟩ := findPass_probed verify hvp (probe s1) ty v none s3 dv3 retry3 hp2
    have hret3 : retry3 = false := by
      cases hr3 : retry3
      · rfl
      · have hcontra := hre3 hr3
        rw [hpr3, hs2] at hcontra
        exact absurd hcontra (by simp)
    have e2 : ∀ f, findDevAux probe verify (f + 2) s none ty v 0 = some (s3, dv3, 1) := by
      intro f
      rw [show f + 2 = (f + 1) + 1 from rfl, findDevAux_step, hp1]
      dsimp only
      rw [if_pos rfl, findDevAux_step, hp2]
      dsimp only
      rw [if_neg (by rw [hret3]; simp)]
    refine ⟨?_, ?_, ?_⟩
    · rw [e2 fuel, show (2 : Nat) = 0 + 2 from rfl, e2 0]
    · rw [show (2 : Nat) = 0 + 2 from rfl, e2 0]
      rfl
    · intro r hr
      rw [show (2 : Nat) = 0 + 2 from rfl, e2 0] at hr
      rcases Option.some.inj hr with rfl
      refine ⟨by show (1 : Nat) ≤ 1; omega, ?_⟩
      intro hcontra
      rw [hprobe_false] at hcontra
      exact absurd hcontra (by simp)

theorem lastSplit_none_iff (c : Char) : ∀ l : List Char, lastSplit c l = none ↔ c ∉ l := by
  intro l
  induction l with
  | nil => simp [lastSplit]
  | cons a rest ih =>
    unfold lastSplit
    rcases hrec : lastSplit c rest with _ | r
    · dsimp only
      by_cases hac : a = c
      · rw [if_pos hac]
        simp [hac]
      · rw [if_neg hac]
        rw [hrec] at ih
        simp only [true_iff] at ih
        simp [Ne.symm hac, ih, hac]
    · dsimp only
      constructor
      · intro hcontra
        exact absurd hcontra (by simp)
      · intro hnot
        have : c ∈ rest := by
          by_contra hcm
          rw [← ih] at hcm
          rw [hrec] at hcm
          exact absurd hcm (by simp)
        exact absurd this (by simp at hnot; exact hnot.2)

theorem lastSplit_some_shape (c : Char) :
    ∀ (l v : List Char), lastSplit c l = some v →
      ∃ suffix, l = v ++ c :: suffix ∧ c ∉ suffix := by
  intro l
  induction l with
  | nil =>
    intro v h
    exact absurd h (by simp [lastSplit])
  | cons a rest ih =>
    intro v h
    unfold lastSplit at h
    rcases hrec : lastSplit c rest with _ | r
    · rw [hrec] at h
      dsimp only at h
      by_cases hac : a = c
      · rw [if_pos hac] at h
        rcases Option.some.inj h with rfl
        refine ⟨rest, ?_, (lastSplit_none_iff c rest).mp hrec⟩
        rw [hac]
        rfl
      · rw [if_neg hac] at h
        exact absurd h (by simp)
    · rw [hrec] at h
      dsimp only at h
      rcases Option.some.inj h with rfl
      obtain ⟨suffix, hsh, hns⟩ := ih r hrec
      exact ⟨suffix, by rw [List.cons_append, hsh], hns⟩

theorem splitFirst_eq (rest1 : List Char) :
    ∀ nm : List Char, '=' ∉ nm →
      (nm ++ '=' :: rest1).takeWhile (fun a => a ≠ '=') = nm ∧
      ((nm ++ '=' :: rest1).dropWhile (fun a => a ≠ '=')).tail = rest1 := by
  intro nm
  induction nm with
  | nil =>
    intro _
    constructor
    · simp [List.takeWhile]
    · simp [List.dropWhile]
  | cons a nm2 ih =>
    intro hmem
    have ha : a ≠ '=' := by
      intro hcontra
      exact hmem (by simp [hcontra])
    obtain ⟨ih1, ih2⟩ := ih (fun hcontra => hmem (by simp [hcontra]))
    constructor
    · rw [List.cons_append, List.takeWhile_cons, if_pos (by simp [ha]), ih1]
    · rw [List.cons_append, List.dropWhile_cons, if_pos (by simp [ha])]
      exact ih2

/-- Grammar-side condition on the remainder after the first `=`: a value
opening with a quote must close it (the quote character occurs again). -/
def quoteOk : List Char → Prop
  | c :: r => (c = dquote ∨ c = squote) → c ∈ r
  | [] => True

/-- Grammar-side description of the produced value: everything between a
leading quote and its last matching counterpart, or the raw remainder. -/
def valueSpec (rest v : List Char) : Prop :=
  match rest with
  | c :: r =>
    if c = dquote ∨ c = squote then ∃ suffix, r = v ++ c :: suffix ∧ c ∉ suffix
    else v = rest
  | [] => v = []

theorem parse_red (token : List Char) (h : '=' ∈ token) :
    blkid_parse_tag_string [] token
      = (match (match (token.dropWhile (fun a => a ≠ '=')).tail with
           | c :: r => if c = dquote ∨ c = squote then lastSplit c r else some (c :: r)
           | [] => some []) with
         | none => none
         | some v => some (token.takeWhile (fun a => a ≠ '='), v)) := by
  unfold blkid_parse_tag_string
  rw [if_pos h]
  rfl

theorem parse_no_eq (token : List Char) (h : '=' ∉ token) :
    blkid_parse_tag_string [] token = none := by
  unfold blkid_parse_tag_string
  rw [if_neg h]

theorem dropWhile_eq_cons :
    ∀ token : List Char, '=' ∈ token →
      token.dropWhile (fun a => a ≠ '=')
        = '=' :: (token.dropWhile (fun a => a ≠ '=')).tail := by
  intro token
  induction token with
  | nil => intro h; exact absurd h (by simp)
  | cons a rest ih =>
    intro h
    by_cases ha : a = '='
    · subst ha
      rw [List.dropWhile_cons, if_neg (by simp)]
      rfl
    · rw [List.dropWhile_cons, if_pos (by simp [ha])]
      exact ih (by rcases List.mem_cons.mp h with h1 | h2; exact absurd h1.symm ha; exact h2)

theorem eq_not_mem_takeWhile (token : List Char) :
    '=' ∉ token.takeWhile (fun a => a ≠ '=') := by
  intro hcontra
  have := List.mem_takeWhile_imp hcontra
  simp at this

/-- C8 (amended): the parser accepts exactly the tokens that contain an
`=` and whose remainder, when it opens with a quote, closes that quote —
the name part may be empty; on success the outputs follow the grammar
split at the first `=`, with a quoted value reaching to the last matching
quote; and either allocation failing surfaces as the error result. -/
theorem parse_tag_characterization (token : List Char) :
    ((blkid_parse_tag_string [] token).isSome ↔
      ∃ nm rest1, token = nm ++ '=' :: rest1 ∧ '=' ∉ nm ∧ quoteOk rest1) ∧
    (∀ nm vl, blkid_parse_tag_string [] token = some (nm, vl) →
      ∃ rest1, token = nm ++ '=' :: rest1 ∧ '=' ∉ nm ∧ valueSpec rest1 vl) ∧
    blkid_parse_tag_string [false] token = none ∧
    blkid_parse_tag_string [true, false] token = none := by
  by_cases hmem : '=' ∈ token
  · have hdecomp : token = token.takeWhile (fun a => a ≠ '=')
        ++ '=' :: (token.dropWhile (fun a => a ≠ '=')).tail := by
      conv_lhs => rw [← List.takeWhile_append_dropWhile
        (p := fun a => decide (a ≠ '=')) (l := token)]
      rw [dropWhile_eq_cons token hmem]
      rfl
    have hnotin := eq_not_mem_takeWhile token
    refine ⟨?_, ?_, ?_, ?_⟩
    · rw [parse_red token hmem]
      rcases hrest : (token.dropWhile (fun a => a ≠ '=')).tail with _ | ⟨c, r⟩
      · rw [hrest] at hdecomp
        constructor
        · intro _
          exact ⟨_, [], hdecomp, hnotin, trivial⟩
        · intro _
          simp
      · rw [hrest] at hdecomp
        dsimp only
        by_cases hq : c = dquote ∨ c = squote
        · rw [if_pos hq]
          constructor
          · intro hs
            rcases hls : lastSplit c r with _ | v
            · rw [hls] at hs
              simp at hs
            · refine ⟨_, c :: r, hdecomp, hnotin, ?_⟩
              intro _
              by_contra hcm
              rw [← lastSplit_none_iff c r] at hcm
              rw [hls] at hcm
              exact absurd hcm (by simp)
          · rintro ⟨nm, rest1, hdec, hnm, hqok⟩
            obtain ⟨h1, h2⟩ := splitFirst_eq rest1 nm hnm
            rw [← hdec] at h2
            rw [hrest] at h2
            have hcr : c :: r = rest1 := h2
            have hcin : c ∈ r := by
              rw [← hcr] at hqok
              exact hqok hq
            rcases hls : lastSplit c r with _ | v
            · rw [lastSplit_none_iff] at hls
              exact absurd hcin hls
            · simp
        · rw [if_neg hq]
          constructor
          · intro _
            refine ⟨_, c :: r, hdecomp, hnotin, ?_⟩
            intro hcontra
            exact absurd hcontra hq
          · intro _
            simp
    · intro nm vl h
      rw [parse_red token hmem] at h
      rcases hrest : (token.dropWhile (fun a => a ≠ '=')).tail with _ | ⟨c, r⟩
      · rw [hrest] at h hdecomp
        dsimp only at h
        simp only [Option.some.injEq, Prod.mk.injEq] at h
        obtain ⟨hn, hv⟩ := h
        subst hn
        refine ⟨[], hdecomp, hnotin, ?_⟩
        rw [← hv]
        rfl
      · rw [hrest] at h hdecomp
        dsimp only at h
        by_cases hq : c = dquote ∨ c = squote
        · rw [if_pos hq] at h
          rcases hls : lastSplit c r with _ | v
          · rw [hls] at h
            exact absurd h (by simp)
          · rw [hls] at h
            dsimp only at h
            simp only [Option.some.injEq, Prod.mk.injEq] at h
            obtain ⟨hn, hv⟩ := h
            subst hn
            refine ⟨c :: r, hdecomp, hnotin, ?_⟩
            unfold valueSpec
            dsimp only
            rw [if_pos hq]
            subst hv
            exact lastSplit_some_shape c r v hls
        · rw [if_neg hq] at h
          dsimp only at h
          simp only [Option.some.injEq, Prod.mk.injEq] at h
          obtain ⟨hn, hv⟩ := h
          subst hn
          refine ⟨c :: r, hdecomp, hnotin, ?_⟩
          unfold valueSpec
          dsimp only
          rw [if_neg hq]
          exact hv.symm
    · unfold blkid_parse_tag_string
      rw [if_pos hmem]
      rfl
    · unfold blkid_parse_tag_string
      rw [if_pos hmem]
      rcases hv : (match (token.dropWhile (fun a => a ≠ '=')).tail with
        | c :: r => if c = dquote ∨ c = squote then lastSplit c r else some (c :: r)
        | [] => some []) with _ | v
      · dsimp only
        rw [hv]
        rfl
      · dsimp only
        rw [hv]
        rfl
  · refine ⟨?_, ?_, ?_, ?_⟩
    · rw [parse_no_eq token hmem]
      constructor
      · intro h
        simp at h
      · rintro ⟨nm, rest1, hdec, -, -⟩
        rw [hdec] at hmem
        exact absurd (by simp : '=' ∈ nm ++ '=' :: rest1) hmem
    · intro nm vl h
      rw [parse_no_eq token hmem] at h
      exact absurd h (by simp)
    · unfold blkid_parse_tag_string
      rw [if_neg hmem]
    · unfold blkid_parse_tag_string
      rw [if_neg hmem]

theorem scanBucket_spec (s : State) (v : String) :
    ∀ (l : List Nat) (f0 : Option Nat) (d0 : Option Nat) (p0 : Int),
      (scanBucket s v l (f0, d0, p0) = (f0, d0, p0) ∧
        ∀ u ∈ l, ((getTag s u).val == some v) = true → bidPri s (getTag s u).dev ≤ p0)
      ∨ (∃ A tid B, l = A ++ tid :: B ∧ ((getTag s tid).val == some v) = true ∧
          bidPri s (getTag s tid).dev > p0 ∧
          scanBucket s v l (f0, d0, p0)
            = (some tid, (getTag s tid).dev, bidPri s (getTag s tid).dev) ∧
          (∀ u ∈ A, ((getTag s u).val == some v) = true →
            bidPri s (getTag s u).dev < bidPri s (getTag s tid).dev) ∧
          (∀ u ∈ B, ((getTag s u).val == some v) = true →
            bidPri s (getTag s u).dev ≤ bidPri s (getTag s tid).dev)) := by
  intro l
  induction l with
  | nil =>
    intro f0 d0 p0
    left
    exact ⟨rfl, by simp⟩
  | cons t rest ih =>
    intro f0 d0 p0
    by_cases hc : ((getTag s t).val == some v
        && decide (bidPri s (getTag s t).dev > p0)) = true
    · obtain ⟨hcv, hcp⟩ := (Bool.and_eq_true _ _).mp hc
      have hcp2 : bidPri s (getTag s t).dev > p0 := of_decide_eq_true hcp
      rw [scanBucket_cons_pos s v t rest f0 d0 p0 hc]
      rcases ih (some t) (getTag s t).dev (bidPri s (getTag s t).dev) with
        ⟨heq, hbound⟩ | ⟨A, tid, B, hsplit, hval, hgt, heq, hA, hB⟩
      · right
        refine ⟨[], t, rest, rfl, hcv, hcp2, heq, by simp, ?_⟩
        intro u hu huv
        exact hbound u hu huv
      · right
        refine ⟨t :: A, tid, B, by rw [hsplit]; rfl, hval, by omega, heq, ?_, hB⟩
        intro u hu huv
        rcases List.mem_cons.mp hu with h1 | h2
        · subst h1
          omega
        · exact hA u h2 huv
    · rw [scanBucket_cons_neg s v t rest f0 d0 p0 hc]
      have hct : ((getTag s t).val == some v) = true → bidPri s (getTag s t).dev ≤ p0 := by
        intro hv2
        by_contra hgt
        apply hc
        rw [Bool.and_eq_true]
        exact ⟨hv2, decide_eq_true (by omega)⟩
      rcases ih f0 d0 p0 with ⟨heq, hbound⟩ | ⟨A, tid, B, hsplit, hval, hgt, heq, hA, hB⟩
      · left
        refine ⟨heq, ?_⟩
        intro u hu huv
        rcases List.mem_cons.mp hu with h1 | h2
        · subst h1
          exact hct huv
        · exact hbound u h2 huv
      · right
        refine ⟨t :: A, tid, B, by rw [hsplit]; rfl, hval, hgt, heq, ?_, hB⟩
        intro u hu huv
        rcases List.mem_cons.mp hu with h1 | h2
        · subst h1
          have := hct huv
          omega
        · exact hA u h2 huv

theorem findPass_scan_found (s : State) (ty v : String) (h tid : Nat) (dvc : Nat)
    (hhead : blkid_find_head_cache s (some ty) = some h)
    (hscan : scanBucket s v (getTag s h).names (none, none, -1)
      = (some tid, (getTag s tid).dev, bidPri s (getTag s tid).dev))
    (hdev : (getTag s tid).dev = some dvc)
    (hval : ((getTag s tid).val == some v) = true) :
    findPass trivVerify s ty v none = some (s, some dvc, false) := by
  unfold findPass
  rw [hhead]
  dsimp only
  rw [hscan]
  dsimp only
  rw [hdev]
  unfold trivVerify
  dsimp only
  rw [hval]
  rfl

/-- C1 (amended): with `PROBED` set, `blkid_find_dev_with_tag` — run with
the trivial verifier, which revalidates every device unchanged — returns
in a single pass (no probe) a device satisfying `BestMatch`: among the
bucket tags matching the value whose device priority exceeds the scan's
`-1` sentinel, the highest-priority one, ties broken by the first
encountered in the bucket walk; absent when no matching tag beats the
sentinel. -/
theorem find_dev_with_tag_best_match (probe : State → State) (s : State)
    (ty v : String) (fuel : Nat) (hp : s.probed = true) :
    ∃ r, findDevAux probe trivVerify (fuel + 1) s none ty v 0 = some (s, r, 0) ∧
      BestMatch s ty v r := by
  have hv : ∀ s2 : State, trivVerify s2 none = (s2, none) := fun _ => rfl
  rcases hhead : blkid_find_head_cache s (some ty) with _ | h
  · refine ⟨none, ?_, ?_⟩
    · rw [findDevAux_step, findPass_head_none trivVerify hv s ty v hhead]
      dsimp only
      rw [if_neg (by rw [hp]; simp)]
    · intro tid htid
      unfold matchIds bucketIds at htid
      rw [hhead] at htid
      simp at htid
  · rcases scanBucket_spec s v (getTag s h).names none none (-1) with
      ⟨heq, hbound⟩ | ⟨A, tid, B, hsplit, hval, hgt, heq, hA, hB⟩
    · refine ⟨none, ?_, ?_⟩
      · rw [findDevAux_step, findPass_scan_none trivVerify hv s ty v h hhead (by rw [heq])]
        dsimp only
        rw [if_neg (by rw [hp]; simp)]
      · intro u hu
        unfold matchIds bucketIds at hu
        rw [hhead] at hu
        obtain ⟨hmem2, hpred⟩ := List.mem_filter.mp hu
        exact hbound u hmem2 hpred
    · have hdev : ∃ dvc, (getTag s tid).dev = some dvc := by
        rcases hd : (getTag s tid).dev with _ | dvc
        · rw [hd] at hgt
          simp [bidPri] at hgt
        · exact ⟨dvc, rfl⟩
      obtain ⟨dvc, hdvc⟩ := hdev
      refine ⟨some dvc, ?_, ?_⟩
      · rw [findDevAux_step,
          findPass_scan_found s ty v h tid dvc hhead (by rw [heq, hdvc]) hdvc hval]
        dsimp only
        rw [if_neg (by simp)]
      · refine ⟨A.filter (fun u => (getTag s u).val == some v), tid,
          B.filter (fun u => (getTag s u).val == some v), ?_, hdvc, hgt, ?_, ?_⟩
        · unfold matchIds bucketIds
          rw [hhead]
          dsimp only
          rw [hsplit, List.filter_append, List.filter_cons, if_pos hval]
        · intro u hu
          obtain ⟨hm, hpred⟩ := List.mem_filter.mp hu
          exact hA u hm hpred
        · intro u hu
          obtain ⟨hm, hpred⟩ := List.mem_filter.mp hu
          exact hB u hm hpred

theorem devPairs_freeTag_sublist (s : State) (tid : Nat) (d : Nat) :
    List.Sublist (devPairs (blkid_free_tag s tid) d) (devPairs s d) := by
  unfold devPairs
  rw [getDevice_freeTag]
  have hcongr : ((getDevice s d).tags.filter (· ≠ tid)).map
        (fun u => ((getTag (blkid_free_tag s tid) u).name, (getTag (blkid_free_tag s tid) u).val))
      = ((getDevice s d).tags.filter (· ≠ tid)).map
        (fun u => ((getTag s u).name, (getTag s u).val)) := by
    apply List.map_congr_left
    intro u hu
    have hne : u ≠ tid := by
      have := List.mem_filter.mp hu
      simpa using this.2
    rw [getTag_freeTag, if_neg hne]
  show List.Sublist (((getDevice s d).tags.filter (· ≠ tid)).map _) _
  rw [hcongr]
  exact (List.filter_sublist _).map _

theorem devPairs_deleteLoop_sublist (d : Nat) (n : String) :
    ∀ (fuel : Nat) (s : State),
      List.Sublist (devPairs (deleteLoop fuel s d n) d) (devPairs s d) := by
  intro fuel
  induction fuel with
  | zero => intro s; exact List.Sublist.refl _
  | succ fuel ih =>
    intro s
    rcases hf : blkid_find_tag_dev s d n with _ | tid
    · have hstep : deleteLoop (fuel + 1) s d n = s := by
        unfold deleteLoop
        rw [hf]
      rw [hstep]
    · have hstep : deleteLoop (fuel + 1) s d n
          = deleteLoop fuel (blkid_free_tag s tid) d n := by
        conv_lhs => unfold deleteLoop
        rw [hf]
      rw [hstep]
      exact (ih (blkid_free_tag s tid)).trans (devPairs_freeTag_sublist s tid d)

theorem deleteLoop_devices_length (d : Nat) (n : String) :
    ∀ (fuel : Nat) (s : State), (deleteLoop fuel s d n).devices.length = s.devices.length := by
  intro fuel
  induction fuel with
  | zero => intro s; rfl
  | succ fuel ih =>
    intro s
    rcases hf : blkid_find_tag_dev s d n with _ | tid
    · have hstep : deleteLoop (fuel + 1) s d n = s := by
        unfold deleteLoop
        rw [hf]
      rw [hstep]
    · have hstep : deleteLoop (fuel + 1) s d n
          = deleteLoop fuel (blkid_free_tag s tid) d n := by
        conv_lhs => unfold deleteLoop
        rw [hf]
      rw [hstep, ih]
      simp [blkid_free_tag]

theorem deleteLoop_nextId (d : Nat) (n : String) :
    ∀ (fuel : Nat) (s : State), (deleteLoop fuel s d n).nextId = s.nextId := by
  intro fuel
  induction fuel with
  | zero => intro s; rfl
  | succ fuel ih =>
    intro s
    rcases hf : blkid_find_tag_dev s d n with _ | tid
    · have hstep : deleteLoop (fuel + 1) s d n = s := by
        unfold deleteLoop
        rw [hf]
      rw [hstep]
    · have hstep : deleteLoop (fuel + 1) s d n
          = deleteLoop fuel (blkid_free_tag s tid) d n := by
        conv_lhs => unfold deleteLoop
        rw [hf]
      rw [hstep, ih]
      rfl

theorem deleteLoop_tags_subset (d : Nat) (n : String) :
    ∀ (fuel : Nat) (s : State) (u : Nat),
      u ∈ (getDevice (deleteLoop fuel s d n) d).tags → u ∈ (getDevice s d).tags := by
  intro fuel
  induction fuel with
  | zero => intro s u h; exact h
  | succ fuel ih =>
    intro s u h
    rcases hf : blkid_find_tag_dev s d n with _ | tid
    · have hstep : deleteLoop (fuel + 1) s d n = s := by
        unfold deleteLoop
        rw [hf]
      rw [hstep] at h
      exact h
    · have hstep : deleteLoop (fuel + 1) s d n
          = deleteLoop fuel (blkid_free_tag s tid) d n := by
        conv_lhs => unfold deleteLoop
        rw [hf]
      rw [hstep] at h
      have h2 := ih (blkid_free_tag s tid) u h
      rw [getDevice_freeTag] at h2
      exact (List.mem_filter.mp h2).1

theorem devPairs_linkTags (s : State) (d : Nat) (n : String) (v : Option String)
    (d' : Nat) : devPairs (linkTags s d n v).1 d' = devPairs s d' := by
  unfold devPairs
  rw [getDevice_linkTags_tags]
  apply List.map_congr_left
  intro u _
  rw [getTag_linkTags]

theorem two_mem_le_length (l : List Nat) (a b : Nat) (ha : a ∈ l) (hb : b ∈ l)
    (hab : a ≠ b) : 2 ≤ l.length := by
  induction l with
  | nil => exact absurd ha (by simp)
  | cons x rest ih =>
    rcases List.mem_cons.mp ha with h1 | h2
    · subst h1
      have hbrest : b ∈ rest := by
        rcases List.mem_cons.mp hb with hb1 | hb2
        · exact absurd hb1.symm hab
        · exact hb2
      have : 1 ≤ rest.length := List.length_pos.mpr (List.ne_nil_of_mem hbrest)
      simp only [List.length_cons]
      omega
    · have harest : a ∈ rest := h2
      have : 1 ≤ rest.length := List.length_pos.mpr (List.ne_nil_of_mem harest)
      simp only [List.length_cons]
      omega

theorem devPairs_createTag (s : State) (d : Nat) (n val : String)
    (hd : d < s.devices.length)
    (hfresh : ∀ u ∈ (getDevice s d).tags, u < s.nextId) :
    devPairs (createTag [] s d n val).1 d = devPairs s d ++ [(some n, some val)] := by
  obtain ⟨_, _, _, htags, _, _, _, _, hpres, hname, hvalc, _⟩ := createTag_ok s d n val hd
  unfold devPairs
  rw [htags, List.map_append]
  congr 1
  · apply List.map_congr_left
    intro u hu
    have h1 := hfresh u hu
    obtain ⟨ha, hb⟩ := hpres u (by omega) (by omega)
    rw [ha, hb]
  · simp [hname, hvalc]

theorem find_tag_name (s : State) (d : Nat) (n : String) (tid : Nat)
    (h : blkid_find_tag_dev s d n = some tid) : (getTag s tid).name = some n := by
  have hp := List.find?_some h
  rwa [beq_iff_eq] at hp

theorem mem_tagsNamed_of (s : State) (d : Nat) (n : String) (u : Nat)
    (hu : u ∈ (getDevice s d).tags) (hn : (getTag s u).name = some n) :
    u ∈ tagsNamed s d n := by
  apply List.mem_filter.mpr
  exact ⟨hu, by simp [hn]⟩

theorem okOp_le_one (s : State) (n : String) (vv : String) (len : Nat) (rep : Bool)
    (hok : okOp s (Op.set n (some vv) len rep) = true) :
    (tagsNamed s 0 n).length ≤ 1 := by
  unfold okOp at hok
  rcases Bool.or_eq_true _ _ |>.mp hok with h1 | h2
  · simp at h1
  · exact of_decide_eq_true h2

theorem applyOp_preserves (s : State) (op : Op)
    (hlen : 0 < s.devices.length)
    (hfresh : ∀ u ∈ (getDevice s 0).tags, u < s.nextId)
    (hinv : Inv4 s 0)
    (hok : okOp s op = true) :
    (0 < (applyOp s op).devices.length ∧
      (∀ u ∈ (getDevice (applyOp s op) 0).tags, u < (applyOp s op).nextId)) ∧
    Inv4 (applyOp s op) 0 := by
  rcases op with ⟨n, v, len, rep⟩
  unfold applyOp
  dsimp only
  rcases v with _ | vv
  · have hred : (blkid_set_tag [] s (some 0) (some n) none len rep).1
        = (linkTags (deleteLoop (getDevice s 0).tags.length s 0 n) 0 n none).1 := by
      rw [blkid_set_tag_some, setTagMain_none_red]
    rw [hred]
    refine ⟨⟨?_, ?_⟩, ?_⟩
    · rw [linkTags_devices_length, deleteLoop_devices_length]
      exact hlen
    · intro u hu
      rw [getDevice_linkTags_tags] at hu
      have hsub := deleteLoop_tags_subset 0 n (getDevice s 0).tags.length s u hu
      rw [linkTags_nextId, deleteLoop_nextId]
      exact hfresh u hsub
    · unfold Inv4
      rw [devPairs_linkTags]
      exact ((devPairs_deleteLoop_sublist 0 n _ s).nodup) hinv
  · rcases hfind : blkid_find_tag_dev s 0 n with _ | tid
    · have hred : (blkid_set_tag [] s (some 0) (some n) (some vv) len rep).1
          = (createTag [] s 0 n (strndupStr vv len)).1 := by
        rw [blkid_set_tag_some, setTagMain_create_red s 0 n vv len rep hfind]
      rw [hred]
      obtain ⟨-, hlen2, hnext2, htags2, -, -, -, -, -, -, -, -⟩ :=
        createTag_ok s 0 n (strndupStr vv len) hlen
      refine ⟨⟨?_, ?_⟩, ?_⟩
      · rw [hlen2]
        exact hlen
      · intro u hu
        rw [htags2] at hu
        rcases List.mem_append.mp hu with h1 | h2
        · have := hfresh u h1
          omega
        · have : u = s.nextId := by simpa using h2
          omega
      · unfold Inv4
        rw [devPairs_createTag s 0 n (strndupStr vv len) hlen hfresh]
        have hnotin : ((some n : Option String), (some (strndupStr vv len) : Option String))
            ∉ devPairs s 0 := by
          intro hcontra
          obtain ⟨u, hu, hgu⟩ := List.mem_map.mp hcontra
          have hnu : (getTag s u).name = some n := by
            have := congrArg Prod.fst hgu
            simpa using this
          have := List.find?_eq_none.mp hfind u hu
          simp [hnu] at this
        have hinv2 : (devPairs s 0).Nodup := hinv
        simp [List.nodup_append, hinv2, hnotin]
    · by_cases heq : ((getTag s tid).val == some (strndupStr vv len)) = true
      · have hred : (blkid_set_tag [] s (some 0) (some n) (some vv) len rep).1 = s := by
          rw [blkid_set_tag_some, setTagMain_same_red s 0 n vv len rep tid hfind heq]
        rw [hred]
        exact ⟨⟨hlen, hfresh⟩, hinv⟩
      · have hname_tid := find_tag_name s 0 n tid hfind
        have hmem_tid : tid ∈ (getDevice s 0).tags := List.mem_of_find?_eq_some hfind
        have hle1 := okOp_le_one s n vv len rep hok
        have htidN := mem_tagsNamed_of s 0 n tid hmem_tid hname_tid
        have huniq : ∀ u ∈ (getDevice s 0).tags, (getTag s u).name = some n → u = tid := by
          intro u hu hun
          by_contra hne
          have huN := mem_tagsNamed_of s 0 n u hu hun
          have := two_mem_le_length (tagsNamed s 0 n) u tid huN htidN hne
          omega
        cases rep with
        | true =>
          have hred : (blkid_set_tag [] s (some 0) (some n) (some vv) len true).1
              = (linkTags (updateTagVal s tid (strndupStr vv len)) 0 n
                  (some (strndupStr vv len))).1 := by
            rw [blkid_set_tag_some, setTagMain_replace_red s 0 n vv len tid hfind heq]
          rw [hred]
          refine ⟨⟨?_, ?_⟩, ?_⟩
          · rw [linkTags_devices_length]
            exact hlen
          · intro u hu
            rw [getDevice_linkTags_tags] at hu
            rw [linkTags_nextId]
            exact hfresh u hu
          · unfold Inv4
            obtain ⟨A, B, hAB⟩ := List.append_of_mem hmem_tid
            have hsome := lookup_isSome_of_find s 0 n tid hfind
            have hpairs_old : devPairs s 0
                = A.map (fun u => ((getTag s u).name, (getTag s u).val))
                  ++ ((getTag s tid).name, (getTag s tid).val)
                    :: B.map (fun u => ((getTag s u).name, (getTag s u).val)) := by
              unfold devPairs
              rw [hAB, List.map_append, List.map_cons]
            have hmid := hinv
            unfold Inv4 at hmid
            rw [hpairs_old, List.nodup_middle, List.nodup_cons] at hmid
            obtain ⟨hnotmid, hnodup_rest⟩ := hmid
            have htid_notA : tid ∉ A := by
              intro hcontra
              exact hnotmid (List.mem_append.mpr (Or.inl
                (List.mem_map_of_mem _ hcontra)))
            have htid_notB : tid ∉ B := by
              intro hcontra
              exact hnotmid (List.mem_append.mpr (Or.inr
                (List.mem_map_of_mem _ hcontra)))
            have hg2 : ∀ u, u ≠ tid →
                ((getTag (linkTags (updateTagVal s tid (strndupStr vv len)) 0 n
                    (some (strndupStr vv len))).1 u).name,
                 (getTag (linkTags (updateTagVal s tid (strndupStr vv len)) 0 n
                    (some (strndupStr vv len))).1 u).val)
                = ((getTag s u).name, (getTag s u).val) := by
              intro u hu
              rw [getTag_linkTags, getTag_updateTagVal]
              rw [if_neg (by intro hcontra; exact hu hcontra.1)]
            have hgtid :
                ((getTag (linkTags (updateTagVal s tid (strndupStr vv len)) 0 n
                    (some (strndupStr vv len))).1 tid).name,
                 (getTag (linkTags (updateTagVal s tid (strndupStr vv len)) 0 n
                    (some (strndupStr vv len))).1 tid).val)
                = (some n, some (strndupStr vv len)) := by
              rw [getTag_linkTags, getTag_updateTagVal, if_pos ⟨rfl, hsome⟩]
              show ((getTag s tid).name, (some (strndupStr vv len) : Option String))
                = (some n, some (strndupStr vv len))
              rw [hname_tid]
            have hpairs_new : devPairs (linkTags (updateTagVal s tid (strndupStr vv len))
                  0 n (some (strndupStr vv len))).1 0
                = A.map (fun u => ((getTag s u).name, (getTag s u).val))
                  ++ ((some n : Option String), (some (strndupStr vv len) : Option String))
                    :: B.map (fun u => ((getTag s u).name, (getTag s u).val)) := by
              have hA2 : A.map (fun u =>
                  ((getTag (linkTags (updateTagVal s tid (strndupStr vv len)) 0 n
                      (some (strndupStr vv len))).1 u).name,
                   (getTag (linkTags (updateTagVal s tid (strndupStr vv len)) 0 n
                      (some (strndupStr vv len))).1 u).val))
                  = A.map (fun u => ((getTag s u).name, (getTag s u).val)) := by
                apply List.map_congr_left
                intro u hu
                exact hg2 u (fun hcontra => htid_notA (hcontra ▸ hu))
              have hB2 : B.map (fun u =>
                  ((getTag (linkTags (updateTagVal s tid (strndupStr vv len)) 0 n
                      (some (strndupStr vv len))).1 u).name,
                   (getTag (linkTags (updateTagVal s tid (strndupStr vv len)) 0 n
                      (some (strndupStr vv len))).1 u).val))
                  = B.map (fun u => ((getTag s u).name, (getTag s u).val)) := by
                apply List.map_congr_left
                intro u hu
                exact hg2 u (fun hcontra => htid_notB (hcontra ▸ hu))
              unfold devPairs
              rw [getDevice_linkTags_tags,
                show getDevice (updateTagVal s tid (strndupStr vv len)) 0 = getDevice s 0
                  from rfl,
                hAB, List.map_append, List.map_cons, hA2, hB2, hgtid]
            rw [hpairs_new, List.nodup_middle, List.nodup_cons]
            refine ⟨?_, hnodup_rest⟩
            intro hcontra
            rcases List.mem_append.mp hcontra with hmA | hmB
            · obtain ⟨u, hu, hgu⟩ := List.mem_map.mp hmA
              have hun : (getTag s u).name = some n := by
                have := congrArg Prod.fst hgu
                simpa using this
              have := huniq u (by rw [hAB]; exact List.mem_append.mpr (Or.inl hu)) hun
              exact htid_notA (this ▸ hu)
            · obtain ⟨u, hu, hgu⟩ := List.mem_map.mp hmB
              have hun : (getTag s u).name = some n := by
                have := congrArg Prod.fst hgu
                simpa using this
              have := huniq u
                (by rw [hAB]; exact List.mem_append.mpr (Or.inr (List.mem_cons_of_mem _ hu)))
                hun
              exact htid_notB (this ▸ hu)
        | false =>
          have hred : (blkid_set_tag [] s (some 0) (some n) (some vv) len false).1
              = (createTag [] (setDevice s 0 { getDevice s 0 with mtype := true }) 0 n
                  (strndupStr vv len)).1 := by
            rw [blkid_set_tag_some, setTagMain_mtype_red s 0 n vv len tid hfind heq]
          rw [hred]
          have hlenM : 0 < (setDevice s 0 { getDevice s 0 with mtype := true }).devices.length := by
            simpa [setDevice] using hlen
          have hgdM : getDevice (setDevice s 0 { getDevice s 0 with mtype := true }) 0
              = { getDevice s 0 with mtype := true } := by
            rw [getDevice_setDevice, if_pos ⟨rfl, hlen⟩]
          have htagsM : (getDevice (setDevice s 0 { getDevice s 0 with mtype := true }) 0).tags
              = (getDevice s 0).tags := by
            rw [hgdM]
          have hfreshM : ∀ u ∈ (getDevice (setDevice s 0
                { getDevice s 0 with mtype := true }) 0).tags,
              u < (setDevice s 0 { getDevice s 0 with mtype := true }).nextId := by
            rw [htagsM]
            exact hfresh
          have hnM : (setDevice s 0 { getDevice s 0 with mtype := true }).nextId
              = s.nextId := rfl
          have hpairsM : devPairs (setDevice s 0 { getDevice s 0 with mtype := true }) 0
              = devPairs s 0 := by
            unfold devPairs
            rw [htagsM]
            rfl
          obtain ⟨-, hlen2, hnext2, htags2, -, -, -, -, -, -, -, -⟩ :=
            createTag_ok (setDevice s 0 { getDevice s 0 with mtype := true }) 0 n
              (strndupStr vv len) hlenM
          refine ⟨⟨?_, ?_⟩, ?_⟩
          · rw [hlen2]
            exact hlenM
          · intro u hu
            rw [htags2, htagsM] at hu
            rcases List.mem_append.mp hu with h1 | h2
            · have := hfresh u h1
              omega
            · have : u = s.nextId := by simpa using h2
              omega
          · unfold Inv4
            rw [devPairs_createTag _ 0 n (strndupStr vv len) hlenM hfreshM, hpairsM]
            have hnotin : ((some n : Option String),
                (some (strndupStr vv len) : Option String)) ∉ devPairs s 0 := by
              intro hcontra
              obtain ⟨u, hu, hgu⟩ := List.mem_map.mp hcontra
              have hun : (getTag s u).name = some n := by
                have := congrArg Prod.fst hgu
                simpa using this
              have huv : (getTag s u).val = some (strndupStr vv len) := by
                have := congrArg Prod.snd hgu
                simpa using this
              have := huniq u hu hun
              subst this
              rw [huv] at heq
              simp at heq
            have hinv2 : (devPairs s 0).Nodup := hinv
            simp [List.nodup_append, hinv2, hnotin]

theorem runOps_inv4 (ops : List Op) :
    ∀ s : State, 0 < s.devices.length →
      (∀ u ∈ (getDevice s 0).tags, u < s.nextId) → Inv4 s 0 → okRun s ops = true →
      Inv4 (runOps s ops) 0 := by
  induction ops with
  | nil =>
    intro s _ _ hinv _
    exact hinv
  | cons op rest ih =>
    intro s hlen hfresh hinv hok
    unfold okRun at hok
    obtain ⟨hok1, hok2⟩ := (Bool.and_eq_true _ _).mp hok
    obtain ⟨⟨hlen2, hfresh2⟩, hinv2⟩ := applyOp_preserves s op hlen hfresh hinv hok1
    show Inv4 (runOps (applyOp s op) rest) 0
    exact ih (applyOp s op) hlen2 hfresh2 hinv2 hok2

/-- C3 (amended): data-model invariant 4 — no two tags on the device
share the same (name, value) pair — holds after every sequence of
`set_tag` / delete operations from the fresh scenario cache, provided
each value-installing call finds at most one tag of its name on the
device (`okRun`).  Without that proviso the invariant fails: `set_tag`
only inspects the first tag of a name, so `replace = true` can copy a
value another same-named tag already carries (see the counterexample),
and `replace = false` can re-add an existing pair. -/
theorem set_tag_inv4_preserved (ops : List Op) (hok : okRun initState ops = true) :
    Inv4 (runOps initState ops) 0 :=
  runOps_inv4 ops initState (by decide) (by decide) (by decide) hok

/-- Scenario state: `sda1` priority 1 and `dm-0` priority 2, both
carrying `UUID=abc` registered in the UUID head bucket, cache probed. -/
def twoDevState : State :=
  { tagStore := [(0, { name := some "UUID", val := some "abc", dev := some 0, names := [] }),
                 (1, { name := some "UUID", val := some "abc", dev := some 1, names := [] }),
                 (2, { name := some "UUID", val := none, dev := none, names := [0, 1] })],
    nextId := 3,
    devices := [{ devname := "sda1", pri := 1, mtype := false, tags := [0],
                  typeSc := none, labelSc := none, uuidSc := some "abc", hasCache := true },
                { devname := "dm-0", pri := 2, mtype := false, tags := [1],
                  typeSc := none, labelSc := none, uuidSc := some "abc", hasCache := true }],
    heads := [2], changed := false, probed := true }

/-- Scenario state after installing the coexisting TYPE tags `ext4` and
`xfs` on the fresh cache. -/
def coexistState : State :=
  runOps initState
    [Op.set "TYPE" (some "ext4") 0 false, Op.set "TYPE" (some "xfs") 0 false]

theorem find_dev_with_tag_best_match_witness :
    ∃ r, findDevAux trivProbe trivVerify 1 twoDevState none "UUID" "abc" 0
        = some (twoDevState, r, 0) ∧
      BestMatch twoDevState "UUID" "abc" r :=
  find_dev_with_tag_best_match trivProbe twoDevState "UUID" "abc" 0 (by decide)

theorem set_tag_inv4_preserved_witness :
    okRun initState
        [Op.set "TYPE" (some "ext4") 0 false, Op.set "TYPE" (some "xfs") 0 false] = true ∧
    Inv4 (runOps initState
        [Op.set "TYPE" (some "ext4") 0 false, Op.set "TYPE" (some "xfs") 0 false]) 0 :=
  ⟨by decide, set_tag_inv4_preserved
    [Op.set "TYPE" (some "ext4") 0 false, Op.set "TYPE" (some "xfs") 0 false] (by decide)⟩

theorem set_tag_delete_all_witness :
    (blkid_set_tag [] coexistState (some 0) (some "TYPE") none 0 false).2 = 0 ∧
    blkid_find_tag_dev (blkid_set_tag [] coexistState (some 0) (some "TYPE") none 0 false).1
      0 "TYPE" = none ∧
    (getDevice (blkid_set_tag [] coexistState (some 0) (some "TYPE") none 0 false).1 0).typeSc
      = none :=
  have h := set_tag_delete_all coexistState 0 "TYPE" 0 false (by decide) (by decide) (by decide)
  ⟨h.1, h.2.1, h.2.2.2.1 rfl⟩

theorem find_dev_with_tag_probe_once_witness :
    (findDevAux (fun s => { s with probed := true }) trivVerify 2 initState
      none "LABEL" "root" 0).isSome :=
  (find_dev_with_tag_probe_once (fun s => { s with probed := true }) trivVerify
    (fun _ => rfl) (fun _ => rfl) (fun _ _ => rfl) initState "LABEL" "root" 0).2.1

theorem set_tag_multiple_type_witness :
    (getDevice (blkid_set_tag []
        (runOps initState [Op.set "TYPE" (some "ext4") 0 false])
        (some 0) (some "TYPE") (some "xfs") 0 false).1 0).mtype = true ∧
    devPairs (blkid_set_tag []
        (runOps initState [Op.set "TYPE" (some "ext4") 0 false])
        (some 0) (some "TYPE") (some "xfs") 0 false).1 0
      = devPairs (runOps initState [Op.set "TYPE" (some "ext4") 0 false]) 0
        ++ [(some "TYPE", some (strndupStr "xfs" 0))] ∧
    (getDevice (blkid_set_tag []
        (runOps initState [Op.set "TYPE" (some "ext4") 0 false])
        (some 0) (some "TYPE") (some "xfs") 0 false).1 0).typeSc
      = (getDevice (runOps initState [Op.set "TYPE" (some "ext4") 0 false]) 0).typeSc :=
  have h := set_tag_multiple_type (runOps initState [Op.set "TYPE" (some "ext4") 0 false])
    0 "TYPE" "xfs" 0 0 (by decide) (by decide) (by decide) (by decide)
  ⟨h.2.1, h.2.2.2.1, h.2.2.2.2 rfl (by decide)⟩

theorem parse_tag_characterization_witness :
    blkid_parse_tag_string [false]
      ['L', 'A', 'B', 'E', 'L', '=', 'r', 'o', 'o', 't'] = none :=
  (parse_tag_characterization ['L', 'A', 'B', 'E', 'L', '=', 'r', 'o', 'o', 't']).2.2.1

theorem set_tag_replace_idempotent_witness :
    blkid_set_tag []
        ((blkid_set_tag [] initState (some 0) (some "TYPE") (some "ext4") 0 true).1)
        (some 0) (some "TYPE") (some "ext4") 0 true
      = ((blkid_set_tag [] initState (some 0) (some "TYPE") (some "ext4") 0 true).1, 0) :=
  set_tag_replace_idempotent initState 0 "TYPE" "ext4" 0 (by decide) (by decide)

theorem set_tag_param_errors_witness :
    (blkid_set_tag [] initState none (some "TYPE") (some "x") 0 false).2 = -22 :=
  (set_tag_param_errors.1 [] initState none (some "TYPE") (some "x") 0 false).mpr
    (Or.inl rfl)
